import Mathlib

/-!
# Verification of `torch/_library/infer_schema.py`

This file is a shallow embedding, in Lean 4, of the schema-string inference
utility `torch/_library/infer_schema.py` (function `infer_schema` together
with its helpers `derived_types`, `get_supported_param_types`,
`SUPPORTED_RETURN_TYPES`, `parse_return`, `SUPPORTED_PARAM_TYPES`,
`supported_param`, `tuple_to_list`, `has_tensor_arg`, `get_device_arg_id`),
plus theorems settling the specification claims about it.

## Modelling conventions

* Python type-annotation objects (`torch.Tensor`, `int`, `typing.List[...]`,
  `typing.Optional[...]`, `typing.Union[...]`, `typing.Tuple[...]`, ...) are
  modelled by the inductive type `PyType`.  `typing.Union` in Python flattens
  nested unions, removes duplicates, collapses a singleton union to its only
  member, and compares equal regardless of argument order; we therefore build
  unions only through the smart constructor `mkUnion`, which flattens,
  removes duplicates and sorts into a canonical order, so that structural
  equality of `PyType` values coincides with Python `==` on the
  corresponding annotation objects.  `typing.Optional[X]` is
  `typing.Union[X, None]` and `torch.types.Number` is
  `typing.Union[int, float, bool]`; both are definitions, not constructors.
* Python strings are modelled as `String`; where proofs have to compute we
  use the underlying `List Char` (`String.data`), mirroring the reference
  style of verified models of string libraries.
* `eval` of a string annotation is external interpreter behaviour; an
  annotation that arrived as a string carries the (deterministic) result of
  evaluating it: either a Python value or `none` when `eval` raises.
* `str(sig)` (rendering of an `inspect.Signature`) is produced by the Python
  standard library, not by this file's source; the embedded `infer_schema`
  takes that rendered string as the explicit argument `sigStr`.
* Exceptions are modelled with `Except PyError`; `ValueError` carries its
  message string, and the `AttributeError`/`AssertionError` that the source
  can also raise are separate constructors.
-/

/-- Model of the Python type-annotation objects this module manipulates.
`other n` stands for an arbitrary unsupported plain class (no `__origin__`
attribute, e.g. `complex` or a user class); `otherGeneric n` stands for an
arbitrary unsupported subscripted `typing` generic (its `__origin__` exists
and is not `tuple`, e.g. `typing.Dict[str, int]`).  `noneType` is the class
`NoneType` (the annotation `None` itself, as opposed to the class, is a
`PyVal`, see below).  `listBare`/`tupleBare` are the unsubscripted
`typing.List`/`typing.Tuple`; `tupleOf ts` is `typing.Tuple[t1, ..., tn]`
(including `typing.Tuple[()]` for `ts = []`); `tupleEllipsis t` is
`typing.Tuple[t, ...]` (Python only admits `Ellipsis` as the second of
exactly two arguments). -/
inductive PyType where
  | tensor
  | int
  | float
  | bool
  | str
  | dtype
  | device
  | noneType
  | sequence (t : PyType)
  | list (t : PyType)
  | listBare
  | tupleBare
  | tupleOf (ts : List PyType)
  | tupleEllipsis (t : PyType)
  | union (ts : List PyType)
  | other (n : Nat)
  | otherGeneric (n : Nat)

namespace InferSchema

mutual
/-- Structural (Boolean) equality on `PyType`.  Because unions are kept in
canonical form (see `mkUnion`), this coincides with Python `==` on the
corresponding annotation objects. -/
def beqPy : PyType → PyType → Bool
  | .tensor, .tensor => true
  | .int, .int => true
  | .float, .float => true
  | .bool, .bool => true
  | .str, .str => true
  | .dtype, .dtype => true
  | .device, .device => true
  | .noneType, .noneType => true
  | .sequence x, .sequence y => beqPy x y
  | .list x, .list y => beqPy x y
  | .listBare, .listBare => true
  | .tupleBare, .tupleBare => true
  | .tupleOf xs, .tupleOf ys => beqPyList xs ys
  | .tupleEllipsis x, .tupleEllipsis y => beqPy x y
  | .union xs, .union ys => beqPyList xs ys
  | .other m, .other n => m == n
  | .otherGeneric m, .otherGeneric n => m == n
  | _, _ => false

/-- Pointwise extension of `beqPy` to lists. -/
def beqPyList : List PyType → List PyType → Bool
  | [], [] => true
  | x :: xs, y :: ys => beqPy x y && beqPyList xs ys
  | _, _ => false
end

instance : BEq PyType := ⟨beqPy⟩

/-- Index of constructors, used for the canonical ordering of union members. -/
def ctorIdx : PyType → Nat
  | .tensor => 0
  | .int => 1
  | .float => 2
  | .bool => 3
  | .str => 4
  | .dtype => 5
  | .device => 6
  | .noneType => 7
  | .sequence _ => 8
  | .list _ => 9
  | .listBare => 10
  | .tupleBare => 11
  | .tupleOf _ => 12
  | .tupleEllipsis _ => 13
  | .union _ => 14
  | .other _ => 15
  | .otherGeneric _ => 16

mutual
/-- Total structural comparison on `PyType`, used only to put the members of
a canonical union into a fixed order (Python union equality ignores order). -/
def cmpPy : PyType → PyType → Ordering
  | a, b =>
    match compare (ctorIdx a) (ctorIdx b) with
    | .lt => .lt
    | .gt => .gt
    | .eq =>
      match a, b with
      | .sequence x, .sequence y => cmpPy x y
      | .list x, .list y => cmpPy x y
      | .tupleEllipsis x, .tupleEllipsis y => cmpPy x y
      | .tupleOf xs, .tupleOf ys => cmpPyList xs ys
      | .union xs, .union ys => cmpPyList xs ys
      | .other m, .other n => compare m n
      | .otherGeneric m, .otherGeneric n => compare m n
      | _, _ => .eq

/-- Lexicographic extension of `cmpPy` to lists. -/
def cmpPyList : List PyType → List PyType → Ordering
  | [], [] => .eq
  | [], _ :: _ => .lt
  | _ :: _, [] => .gt
  | x :: xs, y :: ys =>
    match cmpPy x y with
    | .eq => cmpPyList xs ys
    | o => o
end

/-- Helper for `dedupFirst`: keep the elements not seen before. -/
def dedupFirstAux {α : Type} [BEq α] (seen : List α) : List α → List α
  | [] => []
  | x :: xs =>
    if seen.contains x then dedupFirstAux seen xs
    else x :: dedupFirstAux (seen ++ [x]) xs

/-- Remove duplicates keeping the first occurrence (as Python's
`typing.Union` deduplication and `set` construction from a list do). -/
def dedupFirst {α : Type} [BEq α] (l : List α) : List α := dedupFirstAux [] l

/-- Insert into a list sorted by `cmpPy`. -/
def insertSorted (x : PyType) : List PyType → List PyType
  | [] => [x]
  | y :: ys =>
    match cmpPy x y with
    | .gt => y :: insertSorted x ys
    | _ => x :: y :: ys

/-- Sort by the canonical order. -/
def sortPy (l : List PyType) : List PyType := l.foldr insertSorted []

/-- One-level flattening of union members (members built by `mkUnion` are
already flat, so one level suffices, exactly as in `typing.Union`). -/
def unionFlatten : List PyType → List PyType
  | [] => []
  | .union args :: rest => args ++ unionFlatten rest
  | t :: rest => t :: unionFlatten rest

/-- `typing.Union[t1, ..., tn]`: flatten nested unions, deduplicate, put in
canonical order, and collapse a singleton union to its member. -/
def mkUnion (ts : List PyType) : PyType :=
  match sortPy (dedupFirst (unionFlatten ts)) with
  | [t] => t
  | l => .union l

/-- `typing.Optional[t] = typing.Union[t, None]`. -/
def pyOptional (t : PyType) : PyType := mkUnion [t, .noneType]

/-- `torch.types.Number = typing.Union[int, float, bool]`. -/
def pyNumber : PyType := mkUnion [.int, .float, .bool]

/-- Source `derived_types(base_type, cpp_type, list_base, optional_base_list,
optional_list_base)`: the list of `(python type, schema type)` pairs derived
from one base type. -/
def derived_types (base_type : PyType) (cpp_type : String)
    (list_base optional_base_list optional_list_base : Bool) :
    List (PyType × String) :=
  let result : List (PyType × String) :=
    [(base_type, cpp_type), (pyOptional base_type, cpp_type ++ "?")]
  let derived_seq_types := fun (typ : PyType) => [PyType.sequence typ, PyType.list typ]
  let result := result ++
    (if list_base then
      (derived_seq_types base_type).map (fun seq_typ => (seq_typ, cpp_type ++ "[]"))
    else [])
  let result := result ++
    (if optional_base_list then
      (derived_seq_types (pyOptional base_type)).map
        (fun seq_typ => (seq_typ, cpp_type ++ "?[]"))
    else [])
  let result := result ++
    (if optional_list_base then
      (derived_seq_types base_type).map
        (fun seq_typ => (pyOptional seq_typ, cpp_type ++ "[]?"))
    else [])
  result

/-- Source `get_supported_param_types()`.  The Python code builds a `dict`
from the association list; the keys produced are pairwise distinct, so we
keep the association list itself and look keys up with `List.find?`. -/
def get_supported_param_types : List (PyType × String) :=
  let data : List (PyType × String × Bool × Bool × Bool) :=
    [(.tensor, "Tensor", true, true, false),
     (.int, "SymInt", true, false, true),
     (.float, "float", true, false, true),
     (.bool, "bool", true, false, true),
     (.str, "str", false, false, false),
     (pyNumber, "Scalar", true, false, false),
     (.dtype, "ScalarType", false, false, false),
     (.device, "Device", false, false, false)]
  data.foldl
    (fun result line =>
      result ++ derived_types line.1 line.2.1 line.2.2.1 line.2.2.2.1 line.2.2.2.2)
    []

/-- Module-level `SUPPORTED_PARAM_TYPES = get_supported_param_types()`. -/
def SUPPORTED_PARAM_TYPES : List (PyType × String) := get_supported_param_types

/-- Module-level `SUPPORTED_RETURN_TYPES` dictionary. -/
def SUPPORTED_RETURN_TYPES : List (PyType × String) :=
  [(.tensor, "Tensor"),
   (.list .tensor, "Tensor[]"),
   (.int, "SymInt"),
   (.float, "float"),
   (.bool, "bool"),
   (pyNumber, "Scalar")]

/-- The explicit "module state" used by the embedded `infer_schema`: the two
module-level type tables.  `infer_schema` threads a value of this type
through unchanged, which is how we state that it never mutates them. -/
structure Env where
  supportedParamTypes : List (PyType × String)
  supportedReturnTypes : List (PyType × String)

/-- The actual module-level state. -/
def SUPPORTED_ENV : Env := ⟨SUPPORTED_PARAM_TYPES, SUPPORTED_RETURN_TYPES⟩

/-- Dictionary membership/lookup (`annotation_type in d.keys()` resp.
`d[annotation_type]`), with Python `==` on keys. -/
def lookupType (table : List (PyType × String)) (t : PyType) : Option String :=
  (table.find? (fun kv => kv.1 == t)).map (fun kv => kv.2)

/-- The kinds of `inspect.Parameter`. -/
inductive ParamKind where
  | positionalOnly
  | positionalOrKeyword
  | varPositional
  | keywordOnly
  | varKeyword
deriving DecidableEq, BEq, Repr

/-- Source `supported_param(param)`: only `POSITIONAL_OR_KEYWORD` and
`KEYWORD_ONLY` parameters are supported. -/
def supported_param (kind : ParamKind) : Bool :=
  kind == .positionalOrKeyword || kind == .keywordOnly

/-- Whether the annotation object has an `__origin__` attribute: subscripted
`typing` generics have one, plain classes (and `None`, `Ellipsis`) do not.
Bare `typing.List`/`typing.Tuple` do have `__origin__` (`list` / `tuple`). -/
def hasOrigin : PyType → Bool
  | .sequence _ | .list _ | .listBare
  | .tupleBare | .tupleOf _ | .tupleEllipsis _
  | .union _ | .otherGeneric _ => true
  | _ => false

/-- Whether `__origin__ is tuple` (equivalently `typing.get_origin(t) is
tuple`). -/
def originIsTuple : PyType → Bool
  | .tupleBare | .tupleOf _ | .tupleEllipsis _ => true
  | _ => false

/-- Source `tuple_to_list(tuple_type)`.  Its docstring assumes the argument
is a `typing.Tuple` type, and `infer_schema` only calls it on annotations
whose `__origin__ is tuple`; on other inputs we return the input unchanged
(such inputs are never reached).  Branches follow the source: bare
`typing.Tuple` or empty `__args__` give bare `typing.List`; a single
argument, or two arguments whose second is `Ellipsis`
(`typing.Tuple[t, ...]`), give `typing.List[t]`; otherwise
`typing.List[typing.Union[tuple(type_args)]]`. -/
def tuple_to_list (tuple_type : PyType) : PyType :=
  match tuple_type with
  | .tupleBare => .listBare
  | .tupleOf [] => .listBare
  | .tupleOf [t] => .list t
  | .tupleEllipsis t => .list t
  | .tupleOf ts => .list (mkUnion ts)
  | t => t

mutual
/-- Rendering of a type annotation as it appears inside the brackets of a
`typing` generic (Python `typing._type_repr`): plain classes by qualified
name, generics by their `repr`.  `typing.Union[x, None]` prints as
`typing.Optional[x]`; the model's `other`/`otherGeneric` classes are given
the synthetic names `Cn` / `m.Gn[...]`. -/
def renderArg : PyType → String
  | .tensor => "torch.Tensor"
  | .int => "int"
  | .float => "float"
  | .bool => "bool"
  | .str => "str"
  | .dtype => "torch.dtype"
  | .device => "torch.device"
  | .noneType => "NoneType"
  | .sequence t => "typing.Sequence[" ++ renderArg t ++ "]"
  | .list t => "typing.List[" ++ renderArg t ++ "]"
  | .listBare => "typing.List"
  | .tupleBare => "typing.Tuple"
  | .tupleOf [] => "typing.Tuple[()]"
  | .tupleOf ts => "typing.Tuple[" ++ renderArgs ts ++ "]"
  | .tupleEllipsis t => "typing.Tuple[" ++ renderArg t ++ ", ...]"
  | .union [a, .noneType] => "typing.Optional[" ++ renderArg a ++ "]"
  | .union [.noneType, b] => "typing.Optional[" ++ renderArg b ++ "]"
  | .union ts => "typing.Union[" ++ renderArgs ts ++ "]"
  | .other n => "C" ++ toString n
  | .otherGeneric n => "m.G" ++ toString n ++ "[m.X]"

/-- Comma-joined `renderArg` of a list of type arguments. -/
def renderArgs : List PyType → String
  | [] => ""
  | [t] => renderArg t
  | t :: rest => renderArg t ++ ", " ++ renderArgs rest
end

/-- `str()`/f-string rendering of an annotation object: plain classes render
as `<class '...'>`, `typing` generics as their `repr`. -/
def renderPy : PyType → String
  | .tensor => "<class 'torch.Tensor'>"
  | .int => "<class 'int'>"
  | .float => "<class 'float'>"
  | .bool => "<class 'bool'>"
  | .str => "<class 'str'>"
  | .dtype => "<class 'torch.dtype'>"
  | .device => "<class 'torch.device'>"
  | .noneType => "<class 'NoneType'>"
  | .other n => "<class 'C" ++ toString n ++ "'>"
  | t => renderArg t

/-- Rendering of a dict keys view (`f"{d.keys()}"`) in error messages. -/
def dictKeysRepr (table : List (PyType × String)) : String :=
  "dict_keys([" ++
    String.intercalate ", " (table.map (fun kv => renderPy kv.1)) ++ "])"

/-- Rendering of a dict (`f"{d}"`) in error messages. -/
def dictRepr (table : List (PyType × String)) : String :=
  "\x7b" ++
    String.intercalate ", "
      (table.map (fun kv => renderPy kv.1 ++ ": '" ++ kv.2 ++ "'")) ++ "\x7d"

/-- Rendering of a Python `set` of strings (`f"{s}"`); the iteration order of
a Python set is unspecified, the model uses first-occurrence order. -/
def renderStrSet (l : List String) : String :=
  "\x7b" ++ String.intercalate ", " (l.map (fun s => "'" ++ s ++ "'")) ++ "\x7d"

/-- The result of evaluating an annotation expression: the `None` object or
a type object. -/
inductive PyVal where
  | pyNone
  | pyType (t : PyType)

/-- f-string rendering of a `PyVal`. -/
def renderVal : PyVal → String
  | .pyNone => "None"
  | .pyType t => renderPy t

/-- A parameter's (or the return's) annotation as `inspect` reports it:
either an actual object, or a string (from `from __future__ import
annotations` or explicit quoting).  A string annotation carries its source
text and the value `eval` produces for it (`none` when `eval` raises). -/
inductive Annot where
  | val (v : PyVal)
  | strA (text : String) (ev : Option PyVal)

/-- The value an annotation resolves to, if any. -/
def annotVal : Annot → Option PyVal
  | .val v => some v
  | .strA _ ev => ev

/-- f-string rendering of `param.annotation` (a string annotation renders as
its own text). -/
def annotRepr : Annot → String
  | .val v => renderVal v
  | .strA text _ => text

/-- A parameter's default value.  Python `float` values and their `str()`
rendering are not representable in this embedding, so a float default
carries its `str()` rendering; similarly a `torch.dtype` default carries its
`str()` rendering (e.g. `"torch.float32"`), and an unsupported default
carries the rendering of its type. -/
inductive Default where
  | empty
  | vNone
  | vInt (n : Int)
  | vFloat (r : String)
  | vBool (b : Bool)
  | vStr (s : String)
  | vDtype (r : String)
  | vOther (tyRepr : String)
deriving DecidableEq, Repr

/-- One entry of `inspect.signature(prototype_function).parameters`. -/
structure Param where
  name : String
  kind : ParamKind
  annotation : Option Annot
  default : Default

/-- The exceptions the source can raise: `ValueError` (always built by
`error_fn`, carrying its message), `AttributeError` (from
`annotation_type.__origin__` on an object without that attribute) and
`AssertionError` (from the `dtype_repr.startswith(torch_dot)` assert). -/
inductive PyError where
  | valueError (msg : String)
  | attributeError
  | assertionError
deriving DecidableEq, Repr

instance {ε α : Type} [DecidableEq ε] [DecidableEq α] : DecidableEq (Except ε α) :=
  fun x y =>
    match x, y with
    | .ok a, .ok b =>
      if h : a = b then .isTrue (by rw [h]) else .isFalse (by simp [h])
    | .error a, .error b =>
      if h : a = b then .isTrue (by rw [h]) else .isFalse (by simp [h])
    | .ok _, .error _ => .isFalse (by simp)
    | .error _, .ok _ => .isFalse (by simp)

/-- Source `error_fn(what)` message:
`f"infer_schema(func): {what} " f"Got func with signature {sig})"`. -/
def errorMsg (what sigStr : String) : String :=
  "infer_schema(func): " ++ what ++ " Got func with signature " ++ sigStr ++ ")"

/-- Source `error_fn(what)`: raise `ValueError` with `errorMsg`. -/
def error_fn {α : Type} (what sigStr : String) : Except PyError α :=
  .error (.valueError (errorMsg what sigStr))

/-- Source `convert_type_string`, applied when `type(annotation) == str`:
`eval` the string; when `eval` raises, `error_fn` reports an unsupported
type annotation.  (A non-string annotation passes through unchanged.) -/
def resolveAnnot (sigStr : String) : Annot → Except PyError PyVal
  | .val v => .ok v
  | .strA text ev =>
    match ev with
    | some v => .ok v
    | none => error_fn ("Unsupported type annotation " ++ text ++ ". It is not a type.") sigStr

/-- Lines 54-79 of the source, for one parameter: resolve a string
annotation, test membership in `SUPPORTED_PARAM_TYPES`, and on failure
follow the `annotation_type.__origin__` branch: the attribute access itself
raises `AttributeError` for objects that lack `__origin__` (the `None`
object, plain classes); a tuple generic gets the Tuple-specific message
(with a `List` replacement example exactly when `tuple_to_list` of the
annotation is itself supported); any other generic gets the generic
unsupported-type message.  On success, returns the schema type string. -/
def paramTypeCheck (env : Env) (sigStr name : String) (a : Annot) :
    Except PyError String :=
  match resolveAnnot sigStr a with
  | .error e => .error e
  | .ok v =>
    match v with
    | .pyNone => .error .attributeError
    | .pyType t =>
      match lookupType env.supportedParamTypes t with
      | some schema_type => .ok schema_type
      | none =>
        if hasOrigin t then
          if originIsTuple t then
            let list_type := tuple_to_list t
            let example_type_str :=
              if (lookupType env.supportedParamTypes list_type).isSome then
                "For example, " ++ renderPy list_type ++ ".\n\n"
              else "\n\n"
            error_fn ("Parameter " ++ name ++ " has unsupported type " ++ annotRepr a ++
              ". We do not support Tuple inputs in schema. As a workaround, please try to use List instead. " ++
              example_type_str ++
              "The valid types are: " ++ dictKeysRepr env.supportedParamTypes ++ ".") sigStr
          else
            error_fn ("Parameter " ++ name ++ " has unsupported type " ++ annotRepr a ++
              ". The valid types are: " ++ dictKeysRepr env.supportedParamTypes ++ ".") sigStr
        else .error .attributeError

/-- Lines 87-105 of the source: render a parameter's default value.
`none` means the parameter has no default; `str()` is used for `None`,
`int`, `float` and `bool` defaults, strings are wrapped in double quotes,
and a `torch.dtype` default has the `torch.` prefix of its rendering
asserted and stripped.  Any other default type is rejected. -/
def defaultReprE (sigStr name : String) : Default → Except PyError (Option String)
  | .empty => .ok none
  | .vNone => .ok (some "None")
  | .vInt n => .ok (some (toString n))
  | .vFloat r => .ok (some r)
  | .vBool b => .ok (some (if b then "True" else "False"))
  | .vStr s => .ok (some ("\"" ++ s ++ "\""))
  | .vDtype r =>
    if ("torch.".data).isPrefixOf r.data then .ok (some (String.mk (r.data.drop 6)))
    else .error .assertionError
  | .vOther tyRepr =>
    error_fn ("Parameter " ++ name ++ " has an unsupported default value type " ++ tyRepr ++
      ". Please file an issue on GitHub so we can prioritize this.") sigStr

/-- The `for idx, (name, param) in enumerate(sig.parameters.items())` loop of
`infer_schema`, lines 41-105 of the source.  The accumulators are the
`params` and `seen_args` lists and the `saw_kwarg_only_arg` flag; `idx` is
the enumeration index.  The environment (the module-level tables) is
threaded through and returned, so that the theorems can state that it is
never modified. -/
def loopParams (env : Env) (sigStr : String) (mutates_args : List String) :
    Nat → List Param → List String → List String → Bool →
    Except PyError (List String × List String × Bool) × Env
  | _, [], params, seen_args, saw => (.ok (params, seen_args, saw), env)
  | idx, p :: rest, params, seen_args, saw =>
    if !(supported_param p.kind) then
      (error_fn "We do not support positional-only args, varargs, or varkwargs." sigStr, env)
    else
      -- the first time a kwarg-only arg is seen, add "*" to the schema
      let (params, saw) :=
        if p.kind == .keywordOnly && !saw then (params ++ ["*"], true) else (params, saw)
      match Param.annotation p with
      | none =>
        (error_fn ("Parameter " ++ p.name ++ " must have a type annotation.") sigStr, env)
      | some a =>
        match paramTypeCheck env sigStr p.name a with
        | .error e => (.error e, env)
        | .ok schema_type =>
          let mutated : Except PyError String :=
            if mutates_args.contains p.name then
              if ("Tensor".data).isPrefixOf schema_type.data then
                .ok ("Tensor(a" ++ toString idx ++ "!)" ++ String.mk (schema_type.data.drop 6))
              else
                error_fn ("Parameter " ++ p.name ++
                  " is in mutable_args but only Tensors or collections of Tensors can be mutated") sigStr
            else .ok schema_type
          match mutated with
          | .error e => (.error e, env)
          | .ok schema_type =>
            let seen_args := seen_args ++ [p.name]
            match defaultReprE sigStr p.name p.default with
            | .error e => (.error e, env)
            | .ok none =>
              loopParams env sigStr mutates_args (idx + 1) rest
                (params ++ [schema_type ++ " " ++ p.name]) seen_args saw
            | .ok (some default_repr) =>
              loopParams env sigStr mutates_args (idx + 1) rest
                (params ++ [schema_type ++ " " ++ p.name ++ "=" ++ default_repr]) seen_args saw

/-- Source `parse_return(annotation, error_fn)`.  `annotation = none` models
the `inspect.Signature.empty` sentinel (no return annotation): it is not
`None`, `typing.get_origin` of it is not `tuple`, and it is not a key of
`SUPPORTED_RETURN_TYPES`.  `typing.get_args(typing.Tuple) = ()` so a bare
tuple return yields `"()"`; `typing.get_args(typing.Tuple[t, ...]) =
(t, Ellipsis)` and `Ellipsis` is never a key, so the membership loop
raises. -/
def parse_return (env : Env) (sigStr : String) ( annotation : Option PyVal) :
    Except PyError String :=
  match annotation with
  | some .pyNone => .ok "()"
  | none =>
    error_fn ("Return has unsupported type <class 'inspect._empty'>. The valid types are: " ++
      dictRepr env.supportedReturnTypes ++ ".") sigStr
  | some (.pyType t) =>
    if !(originIsTuple t) then
      match lookupType env.supportedReturnTypes t with
      | some r => .ok r
      | none =>
        error_fn ("Return has unsupported type " ++ renderPy t ++ ". The valid types are: " ++
          dictRepr env.supportedReturnTypes ++ ".") sigStr
    else
      match t with
      | .tupleBare => .ok "()"
      | .tupleOf ts =>
        if ts.all (fun arg => (lookupType env.supportedReturnTypes arg).isSome) then
          .ok ("(" ++ String.intercalate ", "
            (ts.map (fun arg => (lookupType env.supportedReturnTypes arg).getD "")) ++ ")")
        else
          error_fn ("Return has unsupported type " ++ renderPy t ++ ". The valid types are: " ++
            dictRepr env.supportedReturnTypes ++ ".") sigStr
      | .tupleEllipsis t' =>
        error_fn ("Return has unsupported type " ++ renderPy (.tupleEllipsis t') ++
          ". The valid types are: " ++ dictRepr env.supportedReturnTypes ++ ".") sigStr
      | _ => .error .attributeError  -- unreachable: `originIsTuple` holds only of tuple shapes

/-- The embedded `infer_schema(prototype_function, mutates_args)`, lines
10-118 of the source, over the explicit module state `env`.  Its inputs are
the data `inspect.signature` extracts from the prototype function (the
parameter list and the return annotation), the stdlib rendering `sigStr` of
that signature, and `mutates_args`.  After the parameter loop, the
`set(mutates_args) - seen_args` check runs (the set is rendered in
first-occurrence order; Python's set order is unspecified); then the return
annotation is resolved (converting a string annotation) and parsed. -/
def infer_schemaCore (env : Env) (sigParams : List Param) (sigRet : Option Annot)
    (sigStr : String) (mutates_args : List String) : Except PyError String × Env :=
  match loopParams env sigStr mutates_args 0 sigParams [] [] false with
  | (.error e, env') => (.error e, env')
  | (.ok (params, seen_args, _), env') =>
    match mutates_args.filter (fun m => !(seen_args.contains m)) with
    | [] =>
      let retAnnot : Except PyError (Option PyVal) :=
        match sigRet with
        | none => .ok none
        | some a => (resolveAnnot sigStr a).map some
      match retAnnot with
      | .error e => (.error e, env')
      | .ok rv =>
        match parse_return env' sigStr rv with
        | .error e => (.error e, env')
        | .ok ret => (.ok ("(" ++ String.intercalate ", " params ++ ") -> " ++ ret), env')
    | notSeen =>
      (error_fn (renderStrSet (dedupFirst notSeen) ++
        " in mutates_args were not found in the custom op's signature. " ++
        "mutates_args should contain the names of all args that the custom op mutates.") sigStr, env')

/-- `infer_schema` run against the actual module-level tables. -/
def infer_schema (sigParams : List Param) (sigRet : Option Annot)
    (sigStr : String) (mutates_args : List String) : Except PyError String :=
  (infer_schemaCore SUPPORTED_ENV sigParams sigRet sigStr mutates_args).1

/-! ## The two string-based schema inspectors

`has_tensor_arg` and `get_device_arg_id` work purely on the schema string.
Python string operations are modelled on the underlying character lists:
`splitSub` is `str.split` with a non-empty separator (leftmost-first,
non-overlapping), `pyStrip` is `str.strip()`, and `containsSubstr` is the
substring test `needle in s`.  Python raises `IndexError` on an
out-of-range `[1]`; the model totalises that single access with `[]`
(it is only ever exercised on schemas that contain a `'('`). -/

/-- Helper for `splitSub`: scan one character at a time; `skip` counts the
characters of an already-matched separator still to be consumed. -/
def splitAux (needle : List Char) : Nat → List Char → List (List Char)
  | _, [] => [[]]
  | k + 1, _ :: rest => splitAux needle k rest
  | 0, c :: rest =>
    if needle.isPrefixOf (c :: rest) then
      [] :: splitAux needle (needle.length - 1) rest
    else
      match splitAux needle 0 rest with
      | [] => [[c]]  -- unreachable: splitAux never returns []
      | h :: t => (c :: h) :: t

/-- `str.split(sep)` for a non-empty separator `needle`: split at each
leftmost, non-overlapping occurrence.  (Python raises `ValueError` on an
empty separator; the model returns the string whole in that junk case,
which no caller exercises.) -/
def splitSub (needle s : List Char) : List (List Char) :=
  match needle with
  | [] => [s]
  | _ => splitAux needle 0 s

/-- `str.strip()`: remove leading and trailing whitespace. -/
def pyStrip (l : List Char) : List Char :=
  ((l.dropWhile Char.isWhitespace).reverse.dropWhile Char.isWhitespace).reverse

/-- The substring test `needle in s`. -/
def containsSubstr (needle s : List Char) : Bool :=
  (List.range (s.length + 1)).any (fun k => needle.isPrefixOf (s.drop k))

/-- The shared parsing prefix of both inspectors:
`schema.split("->")[0].split("(")[1].split(")")[0].split(",")`. -/
def parseInputs (schema : List Char) : List (List Char) :=
  let beforeArrow := (splitSub ['-', '>'] schema).headD []
  let afterParen := (splitSub ['('] beforeArrow).getD 1 []
  let inputsText := (splitSub [')'] afterParen).headD []
  splitSub [','] inputsText

/-- Source `has_tensor_arg(schema)`: take the first whitespace-separated
field of each (stripped) parsed input and test whether any of them contains
`"Tensor"`. -/
def has_tensor_arg (schema : String) : Bool :=
  let inputs := parseInputs schema.data
  let input_types := inputs.map (fun input => (splitSub [' '] (pyStrip input)).headD [])
  input_types.any (fun s => containsSubstr ("Tensor".data) s)

/-- Source `get_device_arg_id(schema)`: the index of the first parsed input
that strips to exactly `"Device device"`, if any. -/
def get_device_arg_id (schema : String) : Option Nat :=
  let inputs := parseInputs schema.data
  inputs.findIdx? (fun s => pyStrip s == "Device device".data)

/-! ## Specification-side definitions

These definitions restate, following the specification's words, what the
schema of a well-formed signature should look like; the theorems below
compare `infer_schema` against them. -/

/-- The schema type of a parameter whose annotation resolves to a supported
type: the entry of `SUPPORTED_PARAM_TYPES` at the resolved annotation. -/
def paramSchemaType (p : Param) : Option String :=
  match Param.annotation p with
  | none => none
  | some a =>
    match annotVal a with
    | some (.pyType t) => lookupType SUPPORTED_PARAM_TYPES t
    | _ => none

/-- The rendering of a supported default value (`none` when the default's
type is unsupported; `some none` when there is no default). -/
def defaultRenderOpt : Default → Option (Option String)
  | .empty => some none
  | .vNone => some (some "None")
  | .vInt n => some (some (toString n))
  | .vFloat r => some (some r)
  | .vBool b => some (some (if b then "True" else "False"))
  | .vStr s => some (some ("\"" ++ s ++ "\""))
  | .vDtype r =>
    if ("torch.".data).isPrefixOf r.data then some (some (String.mk (r.data.drop 6)))
    else none
  | .vOther _ => none

/-- The `=<default>` part of a parameter entry (empty when no default). -/
def defaultSuffix (p : Param) : String :=
  match (defaultRenderOpt p.default).getD none with
  | none => ""
  | some d => "=" ++ d

/-- A parameter that `infer_schema` accepts: a positional-or-keyword or
keyword-only parameter whose annotation resolves to a supported type, with
a supported (or no) default, and — when its name is in `mutates_args` — a
schema type starting with `"Tensor"`. -/
def paramOK (mutates_args : List String) (p : Param) : Bool :=
  supported_param p.kind &&
  (paramSchemaType p).isSome &&
  (!(mutates_args.contains p.name) ||
    ("Tensor".data).isPrefixOf (((paramSchemaType p).getD "").data)) &&
  (defaultRenderOpt p.default).isSome

/-- The schema entry of an accepted parameter at zero-based position `idx`:
`<schema type> <name>` or `<schema type> <name>=<default>`, with the schema
type replaced by the mutability marker form
`Tensor(a<idx>!)<remainder>` when the parameter is in `mutates_args`. -/
def entryOf (mutates_args : List String) (idx : Nat) (p : Param) : String :=
  let st := (paramSchemaType p).getD ""
  let st :=
    if mutates_args.contains p.name then
      "Tensor(a" ++ toString idx ++ "!)" ++ String.mk (st.data.drop 6)
    else st
  st ++ " " ++ p.name ++ defaultSuffix p

/-- The full entry list of a schema: one entry per parameter in signature
order, with a single `"*"` inserted immediately before the entry of the
first keyword-only parameter (`saw` records whether the `"*"` has already
been emitted). -/
def schemaEntries (mutates_args : List String) : Nat → Bool → List Param → List String
  | _, _, [] => []
  | idx, saw, p :: rest =>
    (if p.kind == .keywordOnly && !saw then ["*"] else []) ++
      entryOf mutates_args idx p ::
        schemaEntries mutates_args (idx + 1) (saw || p.kind == .keywordOnly) rest

/-- The value of the signature's return annotation (`some none` models "no
return annotation", i.e. the `inspect.Signature.empty` sentinel; `none`
means a string annotation that does not evaluate). -/
def retVal : Option Annot → Option (Option PyVal)
  | none => some none
  | some a => (annotVal a).map some

/-- The rendering of a supported return annotation: `"()"` for `None`, the
`SUPPORTED_RETURN_TYPES` name for a single supported return type, and the
parenthesised comma-join of component names for a tuple annotation all of
whose components are supported. -/
def retSchema : Option PyVal → Option String
  | some .pyNone => some "()"
  | none => none
  | some (.pyType t) =>
    if !(originIsTuple t) then lookupType SUPPORTED_RETURN_TYPES t
    else
      match t with
      | .tupleBare => some "()"
      | .tupleOf ts =>
        if ts.all (fun a => (lookupType SUPPORTED_RETURN_TYPES a).isSome) then
          some ("(" ++ String.intercalate ", "
            (ts.map (fun a => (lookupType SUPPORTED_RETURN_TYPES a).getD "")) ++ ")")
        else none
      | _ => none

/-- Claim C1's notion of a parameter entry, with the default (empty)
`mutates_args`: `<schema type> <name>` or `<schema type> <name>=<default>`,
the schema type taken from `SUPPORTED_PARAM_TYPES`. -/
def claimEntry (p : Param) : String :=
  (paramSchemaType p).getD "" ++ " " ++ p.name ++ defaultSuffix p

/-- Claim C1's schema string as literally stated: `'('` + the comma-joined
parameter entries + `') -> '` + the rendering of the return annotation. -/
def claimSchemaC1 (ps : List Param) (ret : String) : String :=
  "(" ++ String.intercalate ", " (ps.map claimEntry) ++ ") -> " ++ ret

/-- The amended claim C1's entry list: the parameter entries in signature
order with a single `"*"` inserted immediately before the entry of the
first keyword-only parameter. -/
def claimEntriesAmended : List Param → List String
  | [] => []
  | p :: rest =>
    if p.kind == .keywordOnly then "*" :: claimEntry p :: rest.map claimEntry
    else claimEntry p :: claimEntriesAmended rest

/-- Claim C4's predicate on the inputs text: some comma-separated input's
type token (first whitespace-separated field of the stripped input)
contains the substring `"Tensor"`. -/
def claimTensorInputs (inputsText : List Char) : Bool :=
  ((splitSub [','] inputsText).map
      (fun input => (splitSub [' '] (pyStrip input)).headD [])).any
    (fun s => containsSubstr ("Tensor".data) s)

/-- Claim C5's value on the inputs text: the index of the first
comma-separated input that strips to exactly `"Device device"`. -/
def claimDeviceId (inputsText : List Char) : Option Nat :=
  (splitSub [','] inputsText).findIdx? (fun s => pyStrip s == "Device device".data)

/-- The schema entries of a run of parameters with no `"*"` insertion (used
to state where the `"*"` sits relative to the two parameter groups). -/
def plainEntries (mutates_args : List String) : Nat → List Param → List String
  | _, [] => []
  | idx, p :: rest => entryOf mutates_args idx p :: plainEntries mutates_args (idx + 1) rest

/-- `str.startswith`, on the underlying character lists. -/
def strStartsWith (m t : String) : Bool := t.data.isPrefixOf m.data

/-- `str.endswith`, on the underlying character lists. -/
def strEndsWith (m t : String) : Bool := t.data.isSuffixOf m.data

/-! ## Bridging lemmas -/

lemma resolveAnnot_ok_iff {s : String} {a : Annot} {v : PyVal} :
    resolveAnnot s a = .ok v ↔ annotVal a = some v := by
  cases a with
  | val w => simp [resolveAnnot, annotVal]
  | strA text ev =>
    cases ev <;> simp [resolveAnnot, annotVal, error_fn]

lemma paramTypeCheck_val_iff {env : Env} {s n : String} {t : PyType} {a : Annot}
    (hv : annotVal a = some (.pyType t)) {st : String} :
    paramTypeCheck env s n a = .ok st ↔
      lookupType env.supportedParamTypes t = some st := by
  have ha : resolveAnnot s a = .ok (.pyType t) := resolveAnnot_ok_iff.mpr hv
  unfold paramTypeCheck
  rw [ha]
  cases hl : lookupType env.supportedParamTypes t with
  | some r => simp [hl]
  | none =>
    simp only [hl]
    split
    · split <;> simp [error_fn]
    · simp

lemma paramTypeCheck_ok_iff {env : Env} {s n : String} {a : Annot} {st : String} :
    paramTypeCheck env s n a = .ok st ↔
      ∃ t, annotVal a = some (.pyType t) ∧
        lookupType env.supportedParamTypes t = some st := by
  constructor
  · intro h
    cases ha : resolveAnnot s a with
    | error e => unfold paramTypeCheck at h; rw [ha] at h; exact absurd h (by simp)
    | ok v =>
      cases v with
      | pyNone => unfold paramTypeCheck at h; rw [ha] at h; exact absurd h (by simp)
      | pyType t =>
        exact ⟨t, resolveAnnot_ok_iff.mp ha,
          (paramTypeCheck_val_iff (resolveAnnot_ok_iff.mp ha)).mp h⟩
  · rintro ⟨t, hv, hl⟩
    exact (paramTypeCheck_val_iff hv).mpr hl

lemma defaultReprE_ok_iff {s n : String} {d : Default} {o : Option String} :
    defaultReprE s n d = .ok o ↔ defaultRenderOpt d = some o := by
  cases d with
  | vDtype r =>
    simp only [defaultReprE, defaultRenderOpt]
    split <;> simp
  | vOther ty => simp [defaultReprE, defaultRenderOpt, error_fn]
  | empty => simp [defaultReprE, defaultRenderOpt]
  | vNone => simp [defaultReprE, defaultRenderOpt]
  | vInt n => simp [defaultReprE, defaultRenderOpt]
  | vFloat r => simp [defaultReprE, defaultRenderOpt]
  | vBool b => simp [defaultReprE, defaultRenderOpt]
  | vStr v => simp [defaultReprE, defaultRenderOpt]

lemma parse_return_nontuple {s : String} {t : PyType} (h : originIsTuple t = false)
    {x : String} :
    parse_return SUPPORTED_ENV s (some (.pyType t)) = .ok x ↔
      lookupType SUPPORTED_RETURN_TYPES t = some x := by
  unfold parse_return
  simp only [h, Bool.not_false, if_true, SUPPORTED_ENV]
  cases hl : lookupType SUPPORTED_RETURN_TYPES t <;> simp [error_fn]

lemma parse_return_ok_iff {s : String} {rv : Option PyVal} {x : String} :
    parse_return SUPPORTED_ENV s rv = .ok x ↔ retSchema rv = some x := by
  cases rv with
  | none => simp [parse_return, retSchema, error_fn]
  | some v =>
    cases v with
    | pyNone => simp [parse_return, retSchema]
    | pyType t =>
      cases htup : originIsTuple t with
      | false =>
        rw [parse_return_nontuple htup]
        simp [retSchema, htup]
      | true =>
        cases t with
        | tupleBare => simp [parse_return, retSchema, originIsTuple]
        | tupleOf ts =>
          have e1 : parse_return SUPPORTED_ENV s (some (.pyType (.tupleOf ts))) =
              (if ts.all (fun a => (lookupType SUPPORTED_RETURN_TYPES a).isSome) then
                Except.ok ("(" ++ String.intercalate ", "
                  (ts.map (fun a => (lookupType SUPPORTED_RETURN_TYPES a).getD "")) ++ ")")
              else error_fn ("Return has unsupported type " ++ renderPy (.tupleOf ts) ++
                ". The valid types are: " ++ dictRepr SUPPORTED_RETURN_TYPES ++ ".") s) := rfl
          have e2 : retSchema (some (.pyType (.tupleOf ts))) =
              (if ts.all (fun a => (lookupType SUPPORTED_RETURN_TYPES a).isSome) then
                some ("(" ++ String.intercalate ", "
                  (ts.map (fun a => (lookupType SUPPORTED_RETURN_TYPES a).getD "")) ++ ")")
              else none) := rfl
          rw [e1, e2]
          split <;> simp [error_fn]
        | tupleEllipsis t' =>
          simp [parse_return, retSchema, originIsTuple, error_fn, SUPPORTED_ENV]
        | _ => simp [originIsTuple] at htup

lemma loopParams_env (env : Env) (s : String) (m : List String) :
    ∀ (ps : List Param) (idx : Nat) (P S : List String) (saw : Bool),
    (loopParams env s m idx ps P S saw).2 = env := by
  intro ps
  induction ps with
  | nil => intro idx P S saw; rfl
  | cons p rest ih =>
    intro idx P S saw
    rw [loopParams]
    repeat' split
    all_goals first | rfl | apply ih

lemma paramSchemaType_eq_some_iff {p : Param} {st : String} :
    paramSchemaType p = some st ↔
      ∃ a t, Param.annotation p = some a ∧ annotVal a = some (.pyType t) ∧
        lookupType SUPPORTED_PARAM_TYPES t = some st := by
  unfold paramSchemaType
  cases hann : Param.annotation p with
  | none => simp
  | some a =>
    cases hv : annotVal a with
    | none => simp [hv]
    | some v =>
      cases v with
      | pyNone => simp [hv]
      | pyType t => simp [hv]

lemma loopParams_step (s : String) (m : List String) (p : Param) (rest : List Param)
    (hOK : paramOK m p = true) (idx : Nat) (P S : List String) (saw : Bool) :
    loopParams SUPPORTED_ENV s m idx (p :: rest) P S saw =
      loopParams SUPPORTED_ENV s m (idx + 1) rest
        ((if p.kind == .keywordOnly && !saw then P ++ ["*"] else P) ++ [entryOf m idx p])
        (S ++ [p.name]) (saw || (p.kind == .keywordOnly)) := by
  simp only [paramOK, Bool.and_eq_true] at hOK
  obtain ⟨⟨⟨hkind, hstsome⟩, hmut⟩, hdef⟩ := hOK
  obtain ⟨st, hst⟩ := Option.isSome_iff_exists.mp hstsome
  obtain ⟨a, t, hann, hv, hl⟩ := paramSchemaType_eq_some_iff.mp hst
  obtain ⟨o, ho⟩ := Option.isSome_iff_exists.mp hdef
  have hptc : paramTypeCheck SUPPORTED_ENV s p.name a = .ok st :=
    (paramTypeCheck_val_iff hv).mpr hl
  have hdr : defaultReprE s p.name p.default = .ok o := defaultReprE_ok_iff.mpr ho
  rw [loopParams]
  rw [if_neg (by simp [hkind])]
  have hsaw : (if p.kind == .keywordOnly && !saw then (P ++ ["*"], true) else (P, saw)) =
      ((if p.kind == .keywordOnly && !saw then P ++ ["*"] else P),
        saw || (p.kind == .keywordOnly)) := by
    cases hk : p.kind == .keywordOnly <;> cases saw <;> simp [hk]
  rw [hsaw]
  try dsimp only
  rw [hann]
  try dsimp only
  rw [hptc]
  try dsimp only
  by_cases hm : m.contains p.name = true
  · have hpre : ("Tensor".data).isPrefixOf (((paramSchemaType p).getD "").data) = true := by
      rw [hm] at hmut; simpa using hmut
    rw [if_pos hm]
    rw [if_pos (by rw [hst] at hpre; exact hpre)]
    try dsimp only
    rw [hdr]
    try dsimp only
    have hsuffix : entryOf m idx p =
        ("Tensor(a" ++ toString idx ++ "!)" ++ String.mk (st.data.drop 6)) ++ " " ++
          p.name ++ defaultSuffix p := by
      unfold entryOf
      rw [hst, hm]
      rfl
    cases o with
    | none =>
      try dsimp only
      rw [hsuffix]
      have h0 : defaultSuffix p = "" := by unfold defaultSuffix; rw [ho]; rfl
      rw [h0, String.append_empty]
    | some d =>
      try dsimp only
      rw [hsuffix]
      have h0 : defaultSuffix p = "=" ++ d := by unfold defaultSuffix; rw [ho]; rfl
      rw [h0, ← String.append_assoc]
  · have hm' : m.contains p.name = false := by simpa using hm
    rw [if_neg hm]
    try dsimp only
    rw [hdr]
    try dsimp only
    have hsuffix : entryOf m idx p = st ++ " " ++ p.name ++ defaultSuffix p := by
      unfold entryOf
      rw [hst, hm']
      rfl
    cases o with
    | none =>
      try dsimp only
      rw [hsuffix]
      have h0 : defaultSuffix p = "" := by unfold defaultSuffix; rw [ho]; rfl
      rw [h0, String.append_empty]
    | some d =>
      try dsimp only
      rw [hsuffix]
      have h0 : defaultSuffix p = "=" ++ d := by unfold defaultSuffix; rw [ho]; rfl
      rw [h0, ← String.append_assoc]

/-- Normalisation of the `saw_kwarg_only_arg` update pair. -/
lemma starPair (p : Param) (P : List String) (saw : Bool) :
    (if p.kind == .keywordOnly && !saw then (P ++ ["*"], true) else (P, saw)) =
      ((if p.kind == .keywordOnly && !saw then P ++ ["*"] else P),
        saw || (p.kind == .keywordOnly)) := by
  cases hk : p.kind == .keywordOnly <;> cases saw <;> simp [hk]

/-- Running the loop over a prefix of accepted parameters accumulates their
entries and names and continues with the remaining parameters. -/
lemma loopParams_run_concat (s : String) (m : List String) :
    ∀ (pre : List Param), (∀ q ∈ pre, paramOK m q = true) →
    ∀ (ps' : List Param) (idx : Nat) (P S : List String) (saw : Bool),
    loopParams SUPPORTED_ENV s m idx (pre ++ ps') P S saw =
      loopParams SUPPORTED_ENV s m (idx + pre.length) ps'
        (P ++ schemaEntries m idx saw pre) (S ++ pre.map (fun p => p.name))
        (saw || pre.any (fun p => p.kind == .keywordOnly)) := by
  intro pre
  induction pre with
  | nil =>
    intro _ ps' idx P S saw
    simp [schemaEntries]
  | cons p pre' ih =>
    intro hOK ps' idx P S saw
    have hp : paramOK m p = true := hOK p (by simp)
    rw [List.cons_append, loopParams_step s m p (pre' ++ ps') hp idx P S saw]
    rw [ih (fun q hq => hOK q (List.mem_cons_of_mem _ hq))]
    have hidx : idx + 1 + pre'.length = idx + (p :: pre').length := by
      simp [List.length_cons]; omega
    rw [hidx]
    cases hkw : p.kind == ParamKind.keywordOnly <;> cases saw <;>
      simp [hkw, schemaEntries, List.append_assoc, Bool.or_assoc, List.any_cons]

/-- The loop over a signature all of whose parameters are accepted:
it succeeds with the parameters' schema entries and names. -/
lemma loopParams_format (s : String) (m : List String) (ps : List Param)
    (hOK : ∀ p ∈ ps, paramOK m p = true) (idx : Nat) (P S : List String) (saw : Bool) :
    loopParams SUPPORTED_ENV s m idx ps P S saw =
      (.ok (P ++ schemaEntries m idx saw ps, S ++ ps.map (fun p => p.name),
        saw || ps.any (fun p => p.kind == .keywordOnly)), SUPPORTED_ENV) := by
  have h := loopParams_run_concat s m ps hOK [] idx P S saw
  rw [List.append_nil] at h
  rw [h]
  rfl

/-- If the loop succeeds, every parameter of the signature was accepted. -/
lemma loopParams_ok_inv (s : String) (m : List String) :
    ∀ (ps : List Param) (idx : Nat) (P S : List String) (saw : Bool) res env2,
    loopParams SUPPORTED_ENV s m idx ps P S saw = (.ok res, env2) →
    ∀ p ∈ ps, paramOK m p = true := by
  intro ps
  induction ps with
  | nil => intro _ _ _ _ _ _ _ p hp; simp at hp
  | cons p rest ih =>
    intro idx P S saw res env2 h q hq
    rw [loopParams] at h
    cases hkind : supported_param p.kind with
    | false =>
      rw [if_pos (by simp [hkind])] at h
      simp [error_fn] at h
    | true =>
      rw [if_neg (by simp [hkind])] at h
      rw [starPair] at h
      try dsimp only at h
      cases hann : Param.annotation p with
      | none =>
        rw [hann] at h
        simp [error_fn] at h
      | some a =>
        rw [hann] at h
        dsimp only at h
        cases hptc : paramTypeCheck SUPPORTED_ENV s p.name a with
        | error e =>
          rw [hptc] at h
          simp at h
        | ok st =>
          rw [hptc] at h
          try dsimp only at h
          by_cases hm : m.contains p.name = true
          · rw [if_pos hm] at h
            cases hpre : ("Tensor".data).isPrefixOf st.data with
            | false =>
              rw [if_neg (by simp [hpre])] at h
              simp [error_fn] at h
            | true =>
              rw [if_pos hpre] at h
              try dsimp only at h
              cases hdr : defaultReprE s p.name p.default with
              | error e =>
                rw [hdr] at h
                simp at h
              | ok o =>
                rw [hdr] at h
                rcases List.mem_cons.mp hq with hqp | hqrest
                · subst hqp
                  obtain ⟨t, hv, hl⟩ := paramTypeCheck_ok_iff.mp hptc
                  have hstq : paramSchemaType q = some st :=
                    paramSchemaType_eq_some_iff.mpr ⟨a, t, hann, hv, hl⟩
                  have hdo : defaultRenderOpt q.default = some o :=
                    defaultReprE_ok_iff.mp hdr
                  simp [paramOK, hkind, hstq, hdo, hm, hpre]
                · cases o with
                  | none => exact ih _ _ _ _ _ _ h q hqrest
                  | some d => exact ih _ _ _ _ _ _ h q hqrest
          · have hm' : m.contains p.name = false := by simpa using hm
            rw [if_neg hm] at h
            try dsimp only at h
            cases hdr : defaultReprE s p.name p.default with
            | error e =>
              rw [hdr] at h
              simp at h
            | ok o =>
              rw [hdr] at h
              rcases List.mem_cons.mp hq with hqp | hqrest
              · subst hqp
                obtain ⟨t, hv, hl⟩ := paramTypeCheck_ok_iff.mp hptc
                have hstq : paramSchemaType q = some st :=
                  paramSchemaType_eq_some_iff.mpr ⟨a, t, hann, hv, hl⟩
                have hdo : defaultRenderOpt q.default = some o :=
                  defaultReprE_ok_iff.mp hdr
                have hnm : q.name ∉ m := by simpa using hm'
                simp [paramOK, hkind, hstq, hdo, hnm]
              · cases o with
                | none => exact ih _ _ _ _ _ _ h q hqrest
                | some d => exact ih _ _ _ _ _ _ h q hqrest

/-- Full characterisation of a successful `infer_schema` run: it succeeds
exactly when every parameter is accepted, every `mutates_args` entry names a
parameter, and the return annotation resolves to a supported value — and the
output is then the parenthesised comma-join of the schema entries, an arrow,
and the return rendering. -/
lemma infer_schema_ok_iff {ps : List Param} {r : Option Annot} {s : String}
    {m : List String} {out : String} :
    infer_schema ps r s m = .ok out ↔
      ((∀ p ∈ ps, paramOK m p = true) ∧
        (∀ x ∈ m, x ∈ ps.map (fun p => p.name)) ∧
        ∃ rv ret, retVal r = some rv ∧ retSchema rv = some ret ∧
          out = "(" ++ String.intercalate ", " (schemaEntries m 0 false ps) ++
            ") -> " ++ ret) := by
  constructor
  · intro h
    unfold infer_schema at h
    rw [infer_schemaCore.eq_def] at h
    cases hl : loopParams SUPPORTED_ENV s m 0 ps [] [] false with
    | mk res env2 =>
      rw [hl] at h
      cases res with
      | error e => simp at h
      | ok acc =>
        obtain ⟨params, seen, saw⟩ := acc
        have hOK : ∀ p ∈ ps, paramOK m p = true :=
          loopParams_ok_inv s m ps 0 [] [] false _ _ hl
        have hfmt := loopParams_format s m ps hOK 0 [] [] false
        rw [hfmt] at hl
        have henv : env2 = SUPPORTED_ENV := by
          have := congrArg (fun x => x.2) hl
          simpa using this.symm
        subst henv
        have hparams : params = schemaEntries m 0 false ps := by
          have := congrArg (fun x => x.1) hl
          simp at this
          exact this.1.symm
        have hseen : seen = ps.map (fun p => p.name) := by
          have := congrArg (fun x => x.1) hl
          simp at this
          exact this.2.1.symm
        subst hparams
        subst hseen
        dsimp only at h
        cases hf : m.filter (fun x => !((ps.map (fun p => p.name)).contains x)) with
        | cons y ys =>
          rw [hf] at h
          simp [error_fn] at h
        | nil =>
          rw [hf] at h
          have hsub : ∀ x ∈ m, x ∈ ps.map (fun p => p.name) := by
            intro x hx
            have := List.filter_eq_nil_iff.mp hf x hx
            simpa using this
          refine ⟨hOK, hsub, ?_⟩
          cases r with
          | none =>
            dsimp only at h
            cases hpr : parse_return SUPPORTED_ENV s none with
            | error e => rw [hpr] at h; simp at h
            | ok ret =>
              rw [hpr] at h
              simp only [Except.ok.injEq] at h
              exact ⟨none, ret, rfl, parse_return_ok_iff.mp hpr, h.symm⟩
          | some a =>
            dsimp only at h
            cases hra : resolveAnnot s a with
            | error e => rw [hra] at h; simp [Except.map] at h
            | ok v =>
              rw [hra] at h
              simp only [Except.map] at h
              try dsimp only at h
              cases hpr : parse_return SUPPORTED_ENV s (some v) with
              | error e => rw [hpr] at h; simp at h
              | ok ret =>
                rw [hpr] at h
                simp only [Except.ok.injEq] at h
                exact ⟨some v, ret, by simp [retVal, resolveAnnot_ok_iff.mp hra],
                  parse_return_ok_iff.mp hpr, h.symm⟩
  · rintro ⟨hOK, hsub, rv, ret, hrv, hret, hout⟩
    unfold infer_schema
    rw [infer_schemaCore.eq_def]
    rw [loopParams_format s m ps hOK 0 [] [] false]
    dsimp only
    have hf : m.filter (fun x => !((([] : List String) ++ ps.map (fun p => p.name)).contains x)) = [] := by
      rw [List.filter_eq_nil_iff]
      intro x hx
      have := hsub x hx
      simp [this]
    rw [hf]
    cases r with
    | none =>
      dsimp only
      have hrv' : rv = none := by simpa [retVal] using hrv.symm
      subst hrv'
      rw [parse_return_ok_iff.mpr hret]
      simp [hout]
    | some a =>
      dsimp only
      have hv : annotVal a = some (rv.getD .pyNone) ∧ ∃ v, rv = some v := by
        cases hva : annotVal a with
        | none => simp [retVal, hva] at hrv
        | some v =>
          simp [retVal, hva] at hrv
          exact ⟨by simp [hrv.symm], v, hrv.symm⟩
      obtain ⟨hva, v, hveq⟩ := hv
      subst hveq
      rw [resolveAnnot_ok_iff.mpr (by simpa using hva)]
      simp only [Except.map]
      try dsimp only
      rw [parse_return_ok_iff.mpr hret]
      simp [hout]

lemma infer_schemaCore_env (env : Env) (ps : List Param) (r : Option Annot)
    (s : String) (m : List String) :
    (infer_schemaCore env ps r s m).2 = env := by
  have h := loopParams_env env s m ps 0 [] [] false
  rw [infer_schemaCore.eq_def]
  cases hl : loopParams env s m 0 ps [] [] false with
  | mk res env2 =>
    have h2 : env2 = env := by rw [hl] at h; exact h
    subst h2
    cases res with
    | error e => rfl
    | ok acc =>
      obtain ⟨params, seen, saw⟩ := acc
      dsimp only
      repeat' split
      all_goals rfl

lemma parse_return_error_valueError {env : Env} {s : String} {rv : Option PyVal}
    {e : PyError} (hor : ∀ t, rv = some (.pyType t) → originIsTuple t = true →
      t = .tupleBare ∨ (∃ ts, t = .tupleOf ts) ∨ (∃ t', t = .tupleEllipsis t'))
    (h : parse_return env s rv = .error e) : ∃ msg, e = .valueError msg := by
  cases rv with
  | none => exact ⟨_, by simpa [parse_return, error_fn] using h.symm⟩
  | some v =>
    cases v with
    | pyNone => simp [parse_return] at h
    | pyType t =>
      cases ht : originIsTuple t with
      | false =>
        unfold parse_return at h
        simp only [ht] at h
        cases hl : lookupType env.supportedReturnTypes t with
        | some r => simp [hl] at h
        | none =>
          simp [hl, error_fn] at h
          exact ⟨_, h.symm⟩
      | true =>
        rcases hor t rfl ht with h1 | ⟨ts, h1⟩ | ⟨t', h1⟩ <;> subst h1
        · simp [parse_return, originIsTuple] at h
        · have e1 : parse_return env s (some (.pyType (.tupleOf ts))) =
              (if ts.all (fun a => (lookupType env.supportedReturnTypes a).isSome) then
                Except.ok ("(" ++ String.intercalate ", "
                  (ts.map (fun a => (lookupType env.supportedReturnTypes a).getD "")) ++ ")")
              else error_fn ("Return has unsupported type " ++ renderPy (.tupleOf ts) ++
                ". The valid types are: " ++ dictRepr env.supportedReturnTypes ++ ".") s) := rfl
          rw [e1] at h
          split at h
          · simp at h
          · exact ⟨_, by simpa [error_fn] using h.symm⟩
        · have e2 : parse_return env s (some (.pyType (.tupleEllipsis t'))) =
              error_fn ("Return has unsupported type " ++ renderPy (.tupleEllipsis t') ++
                ". The valid types are: " ++ dictRepr env.supportedReturnTypes ++ ".") s := rfl
          rw [e2] at h
          exact ⟨_, by simpa [error_fn] using h.symm⟩

/-! ## Claim theorems -/

/-- C7: `infer_schema` does not modify its inputs or any persistent state.
In this by-value embedding the inputs are immutable values; the mutable
module state (the tables `SUPPORTED_PARAM_TYPES` and
`SUPPORTED_RETURN_TYPES`) is threaded through `infer_schemaCore`
explicitly, and — whether the run succeeds or fails — it comes out exactly
as it went in, and the module-level state is definitionally the pair of
tables built at import time. -/
theorem C7_no_state_mutation (env : Env) (ps : List Param) (r : Option Annot)
    (s : String) (m : List String) :
    (infer_schemaCore env ps r s m).2 = env ∧
    SUPPORTED_ENV = ⟨SUPPORTED_PARAM_TYPES, SUPPORTED_RETURN_TYPES⟩ :=
  ⟨infer_schemaCore_env env ps r s m, rfl⟩

/-- C6: `infer_schema` is a pure transformation of the signature: two calls
with the same parameter list (kinds, names, annotations, defaults), the
same return annotation and the same `mutates_args` return the same schema
string — even when the stdlib rendering of the signature differs, since a
successful run's output does not depend on it. -/
theorem C6_pure_function (ps₁ ps₂ : List Param) (r₁ r₂ : Option Annot)
    (s₁ s₂ : String) (m₁ m₂ : List String) (out : String)
    (hp : ps₁ = ps₂) (hr : r₁ = r₂) (hm : m₁ = m₂) :
    infer_schema ps₁ r₁ s₁ m₁ = .ok out ↔ infer_schema ps₂ r₂ s₂ m₂ = .ok out := by
  subst hp; subst hr; subst hm
  rw [infer_schema_ok_iff, infer_schema_ok_iff]

/-- Witness for C6 at a concrete signature (`def f(x: Tensor) -> None`),
with two different signature renderings. -/
theorem C6_pure_function_witness :
    (infer_schema [⟨"x", .positionalOrKeyword, some (.val (.pyType .tensor)), .empty⟩]
        (some (.val .pyNone)) "(x: Tensor) -> None" [] = .ok "(Tensor x) -> ()" ↔
      infer_schema [⟨"x", .positionalOrKeyword, some (.val (.pyType .tensor)), .empty⟩]
        (some (.val .pyNone)) "(x: torch.Tensor) -> None" [] = .ok "(Tensor x) -> ()") ∧
    infer_schema [⟨"x", .positionalOrKeyword, some (.val (.pyType .tensor)), .empty⟩]
      (some (.val .pyNone)) "(x: Tensor) -> None" [] = .ok "(Tensor x) -> ()" :=
  ⟨C6_pure_function _ _ _ _ _ _ _ _ _ rfl rfl rfl, by decide⟩

/-- C3: `parse_return` maps `None` to `"()"`; maps a single supported return
type to its `SUPPORTED_RETURN_TYPES` name (in particular `Tensor` to
`"Tensor"` and `int` to `"SymInt"`); maps a tuple annotation whose
components are all supported to the parenthesised comma-join of their names
(a bare `typing.Tuple`, whose `typing.get_args` is empty, yields `"()"`,
the empty instance of that case); and raises `ValueError` for every other
annotation (`retSchema rv = none` characterises exactly the remaining
annotations: unannotated returns, unsupported single types, and tuples with
an unsupported component or a trailing `Ellipsis`). -/
theorem C3_parse_return_cases :
    (∀ s : String, parse_return SUPPORTED_ENV s (some .pyNone) = .ok "()") ∧
    (∀ (s : String) (t : PyType) (r : String), originIsTuple t = false →
      lookupType SUPPORTED_RETURN_TYPES t = some r →
      parse_return SUPPORTED_ENV s (some (.pyType t)) = .ok r) ∧
    lookupType SUPPORTED_RETURN_TYPES .tensor = some "Tensor" ∧
    lookupType SUPPORTED_RETURN_TYPES .int = some "SymInt" ∧
    (∀ (s : String) (ts : List PyType),
      (∀ t ∈ ts, (lookupType SUPPORTED_RETURN_TYPES t).isSome = true) →
      parse_return SUPPORTED_ENV s (some (.pyType (.tupleOf ts))) =
        .ok ("(" ++ String.intercalate ", "
          (ts.map (fun t => (lookupType SUPPORTED_RETURN_TYPES t).getD "")) ++ ")")) ∧
    (∀ s : String, parse_return SUPPORTED_ENV s (some (.pyType .tupleBare)) = .ok "()") ∧
    (∀ (s : String) (rv : Option PyVal), retSchema rv = none →
      ∃ msg, parse_return SUPPORTED_ENV s rv = .error (.valueError msg)) := by
  refine ⟨fun s => rfl, ?_, by decide, by decide, ?_, fun s => rfl, ?_⟩
  · intro s t r ht hl
    exact (parse_return_nontuple ht).mpr hl
  · intro s ts hall
    apply parse_return_ok_iff.mpr
    show retSchema (some (.pyType (.tupleOf ts))) = _
    have : (ts.all (fun a => (lookupType SUPPORTED_RETURN_TYPES a).isSome)) = true :=
      List.all_eq_true.mpr hall
    simp [retSchema, originIsTuple, this]
  · intro s rv hnone
    cases hpr : parse_return SUPPORTED_ENV s rv with
    | ok x => exact absurd (parse_return_ok_iff.mp hpr) (by simp [hnone])
    | error e =>
      have hform : ∃ msg, e = .valueError msg := by
        apply parse_return_error_valueError ?_ hpr
        intro t hteq ht
        cases t with
        | tupleBare => exact Or.inl rfl
        | tupleOf ts => exact Or.inr (Or.inl ⟨ts, rfl⟩)
        | tupleEllipsis t' => exact Or.inr (Or.inr ⟨t', rfl⟩)
        | _ => simp [originIsTuple] at ht
      obtain ⟨msg, hmsg⟩ := hform
      exact ⟨msg, by rw [hmsg]⟩

lemma entryOf_nil (idx : Nat) (p : Param) : entryOf [] idx p = claimEntry p := rfl

lemma schemaEntries_nil_true (ps : List Param) :
    ∀ idx, schemaEntries [] idx true ps = ps.map claimEntry := by
  induction ps with
  | nil => intro idx; rfl
  | cons p rest ih =>
    intro idx
    simp [schemaEntries, ih, entryOf_nil]

lemma schemaEntries_nil_amended (ps : List Param) :
    ∀ idx, schemaEntries [] idx false ps = claimEntriesAmended ps := by
  induction ps with
  | nil => intro idx; rfl
  | cons p rest ih =>
    intro idx
    cases hk : p.kind == ParamKind.keywordOnly with
    | true =>
      simp [schemaEntries, claimEntriesAmended, hk, schemaEntries_nil_true, entryOf_nil]
    | false =>
      simp [schemaEntries, claimEntriesAmended, hk, ih, entryOf_nil]

lemma schemaEntries_append (m : List String) (xs : List Param) :
    ∀ (ys : List Param) (idx : Nat) (saw : Bool),
    schemaEntries m idx saw (xs ++ ys) =
      schemaEntries m idx saw xs ++
        schemaEntries m (idx + xs.length) (saw || xs.any (fun p => p.kind == .keywordOnly)) ys := by
  induction xs with
  | nil => intro ys idx saw; simp [schemaEntries]
  | cons p rest ih =>
    intro ys idx saw
    simp only [List.cons_append, schemaEntries, List.length_cons, List.any_cons,
      List.append_eq]
    rw [ih]
    rw [show idx + 1 + rest.length = idx + (rest.length + 1) from by omega]
    rw [Bool.or_assoc]
    simp [List.append_assoc]

lemma schemaEntries_saw_true (m : List String) (ps : List Param) :
    ∀ idx, schemaEntries m idx true ps = plainEntries m idx ps := by
  induction ps with
  | nil => intro idx; rfl
  | cons p rest ih => intro idx; simp [schemaEntries, plainEntries, ih]

lemma schemaEntries_no_kw (m : List String) (ps : List Param)
    (h : ∀ p ∈ ps, (p.kind == ParamKind.keywordOnly) = false) :
    ∀ idx saw, schemaEntries m idx saw ps = plainEntries m idx ps := by
  induction ps with
  | nil => intro idx saw; rfl
  | cons p rest ih =>
    intro idx saw
    have hp := h p (by simp)
    simp [schemaEntries, plainEntries, hp,
      ih (fun q hq => h q (List.mem_cons_of_mem _ hq))]

lemma schemaEntries_all_kw (m : List String) (p : Param) (ps : List Param)
    (hp : (p.kind == ParamKind.keywordOnly) = true) :
    ∀ idx, schemaEntries m idx false (p :: ps) = "*" :: plainEntries m idx (p :: ps) := by
  intro idx
  simp [schemaEntries, plainEntries, hp, schemaEntries_saw_true]

lemma entryOf_ne_star (m : List String) (idx : Nat) (p : Param) :
    entryOf m idx p ≠ "*" := by
  intro h
  have hmem : ' ' ∈ (entryOf m idx p).data := by
    unfold entryOf
    simp [String.data_append]
  rw [h] at hmem
  exact absurd hmem (by decide)

lemma star_not_mem_plainEntries (m : List String) (ps : List Param) :
    ∀ idx, "*" ∉ plainEntries m idx ps := by
  induction ps with
  | nil => intro idx h; simp [plainEntries] at h
  | cons p rest ih =>
    intro idx h
    rcases List.mem_cons.mp h with h1 | h1
    · exact entryOf_ne_star m idx p h1.symm
    · exact ih (idx + 1) h1

/-- C9: in every schema string `infer_schema` returns (for a signature made
of a block of positional-or-keyword parameters followed by a block of
keyword-only parameters, the only shapes the loop accepts and the order
`inspect.Signature` enforces), the entry `"*"` appears exactly once when
there is at least one keyword-only parameter and not at all otherwise, and
it sits immediately before the first keyword-only parameter's entry, after
all positional-or-keyword parameters' entries. -/
theorem C9_star_placement (ps pre post : List Param) (r : Option Annot) (s : String)
    (m : List String) (out : String)
    (hps : ps = pre ++ post)
    (hpre : ∀ p ∈ pre, p.kind = ParamKind.positionalOrKeyword)
    (hpost : ∀ p ∈ post, p.kind = ParamKind.keywordOnly)
    (hok : infer_schema ps r s m = .ok out) :
    ∃ entries ret,
      out = "(" ++ String.intercalate ", " entries ++ ") -> " ++ ret ∧
      entries = plainEntries m 0 pre ++
        (if post.isEmpty then [] else "*" :: plainEntries m pre.length post) ∧
      entries.count "*" = (if post.isEmpty then 0 else 1) ∧
      (("*" ∈ entries) ↔ ∃ p ∈ ps, p.kind = ParamKind.keywordOnly) := by
  obtain ⟨-, -, rv, ret, -, -, hout⟩ := infer_schema_ok_iff.mp hok
  subst hps
  have hpreb : ∀ p ∈ pre, (p.kind == ParamKind.keywordOnly) = false := by
    intro p hp
    rw [hpre p hp]
    rfl
  have hsplit : schemaEntries m 0 false (pre ++ post) =
      plainEntries m 0 pre ++
        (if post.isEmpty then [] else "*" :: plainEntries m pre.length post) := by
    rw [schemaEntries_append]
    rw [schemaEntries_no_kw m pre hpreb]
    have hany : pre.any (fun p => p.kind == .keywordOnly) = false := by
      rw [List.any_eq_false]
      intro p hp
      simp [hpreb p hp]
    rw [hany]
    cases post with
    | nil => simp [schemaEntries]
    | cons q qs =>
      have hq : (q.kind == ParamKind.keywordOnly) = true := by
        rw [hpost q (by simp)]
        rfl
      simp only [Nat.zero_add, Bool.or_false]
      rw [schemaEntries_all_kw m q qs hq]
      simp
  refine ⟨schemaEntries m 0 false (pre ++ post), ret, hout, hsplit, ?_, ?_⟩
  · rw [hsplit]
    rw [List.count_append]
    have h0 : (plainEntries m 0 pre).count "*" = 0 :=
      List.count_eq_zero.mpr (star_not_mem_plainEntries m pre 0)
    rw [h0]
    cases post with
    | nil => simp
    | cons q qs =>
      have h1 : (plainEntries m pre.length (q :: qs)).count "*" = 0 :=
        List.count_eq_zero.mpr (star_not_mem_plainEntries m (q :: qs) pre.length)
      simp [List.count_cons, h1]
  · rw [hsplit]
    constructor
    · intro hmem
      rcases List.mem_append.mp hmem with h1 | h1
      · exact absurd h1 (star_not_mem_plainEntries m pre 0)
      · cases post with
        | nil => simp at h1
        | cons q qs =>
          exact ⟨q, by simp, hpost q (by simp)⟩
    · rintro ⟨p, hp, hk⟩
      rcases List.mem_append.mp hp with h1 | h1
      · rw [hpre p h1] at hk
        exact absurd hk (by decide)
      · cases post with
        | nil => simp at h1
        | cons q qs => simp

/-- Witness for C9 at `def f(x: Tensor, *, n: int) -> None`. -/
theorem C9_star_placement_witness :
    ∃ entries ret,
      "(Tensor x, *, SymInt n) -> ()" =
        "(" ++ String.intercalate ", " entries ++ ") -> " ++ ret ∧
      entries = plainEntries [] 0 [⟨"x", .positionalOrKeyword, some (.val (.pyType .tensor)), .empty⟩] ++
        (if ([⟨"n", ParamKind.keywordOnly, some (.val (.pyType .int)), Default.empty⟩] : List Param).isEmpty
          then [] else "*" :: plainEntries [] 1 [⟨"n", .keywordOnly, some (.val (.pyType .int)), .empty⟩]) ∧
      entries.count "*" =
        (if ([⟨"n", ParamKind.keywordOnly, some (.val (.pyType .int)), Default.empty⟩] : List Param).isEmpty
          then 0 else 1) ∧
      (("*" ∈ entries) ↔ ∃ p ∈
        ([⟨"x", .positionalOrKeyword, some (.val (.pyType .tensor)), .empty⟩,
          ⟨"n", .keywordOnly, some (.val (.pyType .int)), .empty⟩] : List Param),
        p.kind = ParamKind.keywordOnly) :=
  C9_star_placement _
    [⟨"x", .positionalOrKeyword, some (.val (.pyType .tensor)), .empty⟩]
    [⟨"n", .keywordOnly, some (.val (.pyType .int)), .empty⟩]
    (some (.val .pyNone)) "(x: Tensor, *, n: int) -> None" [] _
    rfl (by intro p hp; simp at hp; rw [hp]) (by intro p hp; simp at hp; rw [hp]) rfl

lemma entryOf_mem_schemaEntries (m : List String) (ps : List Param) :
    ∀ (i : Nat) (p : Param) (idx : Nat) (saw : Bool), ps.get? i = some p →
    entryOf m (idx + i) p ∈ schemaEntries m idx saw ps := by
  induction ps with
  | nil => intro i p idx saw h; simp at h
  | cons q rest ih =>
    intro i p idx saw h
    cases i with
    | zero =>
      simp only [List.get?_cons_zero, Option.some.injEq] at h
      subst h
      simp [schemaEntries]
    | succ j =>
      simp only [List.get?_cons_succ] at h
      have := ih j p (idx + 1) (saw || q.kind == ParamKind.keywordOnly) h
      rw [show idx + 1 + j = idx + (j + 1) from by omega] at this
      simp only [schemaEntries]
      exact List.mem_append.mpr (Or.inr (List.mem_cons_of_mem _ this))

/-- One loop step on a mutated parameter whose schema type does not start
with `"Tensor"`: the `ValueError` from lines 81-84 of the source. -/
lemma loopParams_mut_error (s : String) (m : List String) (p : Param)
    (post : List Param) (hkind : supported_param p.kind = true)
    {st : String} (hst : paramSchemaType p = some st)
    (hm : m.contains p.name = true)
    (hpre : ("Tensor".data).isPrefixOf st.data = false)
    (idx : Nat) (P S : List String) (saw : Bool) :
    loopParams SUPPORTED_ENV s m idx (p :: post) P S saw =
      (error_fn ("Parameter " ++ p.name ++
        " is in mutable_args but only Tensors or collections of Tensors can be mutated") s,
        SUPPORTED_ENV) := by
  obtain ⟨a, t, hann, hv, hl⟩ := paramSchemaType_eq_some_iff.mp hst
  have hptc : paramTypeCheck SUPPORTED_ENV s p.name a = .ok st :=
    (paramTypeCheck_val_iff hv).mpr hl
  rw [loopParams]
  rw [if_neg (by simp [hkind])]
  rw [starPair]
  try dsimp only
  rw [hann]
  try dsimp only
  rw [hptc]
  try dsimp only
  rw [if_pos hm]
  rw [if_neg (by simp [hpre])]
  rfl

/-- C2: if a parameter's name is listed in `mutates_args` and its schema
type starts with `"Tensor"`, then in every schema `infer_schema` returns
the parameter's entry renders its type as `Tensor(a<idx>!)` followed by the
remainder of the schema type, where `idx` is the parameter's zero-based
position in the signature; if its schema type does not start with
`"Tensor"`, `infer_schema` raises `ValueError` instead (once processing
reaches that parameter). -/
theorem C2_mutability_markers :
    (∀ (ps : List Param) (r : Option Annot) (s : String) (m : List String)
       (out : String) (i : Nat) (p : Param),
      infer_schema ps r s m = .ok out → ps.get? i = some p →
      m.contains p.name = true →
      ("Tensor".data).isPrefixOf (((paramSchemaType p).getD "").data) = true ∧
      entryOf m i p = "Tensor(a" ++ toString i ++ "!)" ++
        String.mk ((((paramSchemaType p).getD "").data).drop 6) ++ " " ++ p.name ++
        defaultSuffix p ∧
      entryOf m i p ∈ schemaEntries m 0 false ps ∧
      ∃ ret, out = "(" ++ String.intercalate ", " (schemaEntries m 0 false ps) ++
        ") -> " ++ ret) ∧
    (∀ (pre post : List Param) (p : Param) (r : Option Annot) (s : String)
       (m : List String),
      (∀ q ∈ pre, paramOK m q = true) →
      supported_param p.kind = true →
      (paramSchemaType p).isSome = true →
      m.contains p.name = true →
      ("Tensor".data).isPrefixOf (((paramSchemaType p).getD "").data) = false →
      infer_schema (pre ++ p :: post) r s m =
        .error (.valueError (errorMsg ("Parameter " ++ p.name ++
          " is in mutable_args but only Tensors or collections of Tensors can be mutated") s))) := by
  constructor
  · intro ps r s m out i p hok hget hm
    obtain ⟨hOK, -, rv, ret, -, -, hout⟩ := infer_schema_ok_iff.mp hok
    have hp : p ∈ ps := List.get?_mem hget
    have hpOK := hOK p hp
    simp only [paramOK, Bool.and_eq_true] at hpOK
    obtain ⟨⟨⟨-, -⟩, hmut⟩, -⟩ := hpOK
    have hmark : ("Tensor".data).isPrefixOf (((paramSchemaType p).getD "").data) = true := by
      rw [hm] at hmut
      simpa using hmut
    refine ⟨hmark, ?_, ?_, ret, hout⟩
    · have hmem : p.name ∈ m := by simpa using hm
      simp [entryOf, hmem]
    · have := entryOf_mem_schemaEntries m ps i p 0 false hget
      simpa using this
  · intro pre post p r s m hOKpre hkind hstsome hm hnpre
    obtain ⟨st, hst⟩ := Option.isSome_iff_exists.mp hstsome
    have hst' : ((paramSchemaType p).getD "") = st := by rw [hst]; rfl
    rw [hst'] at hnpre
    unfold infer_schema
    rw [infer_schemaCore.eq_def]
    rw [loopParams_run_concat s m pre hOKpre (p :: post) 0 [] [] false]
    rw [loopParams_mut_error s m p post hkind hst hm hnpre]
    rfl

/-- Witness for C2: positive half at `def f(x: Tensor, y: Tensor) -> None`
with `mutates_args = ["y"]` (marker `Tensor(a1!)`), negative half at
`def f(n: int) -> None` with `mutates_args = ["n"]`. -/
theorem C2_mutability_markers_witness :
    (("Tensor".data).isPrefixOf
        (((paramSchemaType ⟨"y", .positionalOrKeyword, some (.val (.pyType .tensor)), .empty⟩).getD "").data) = true ∧
      entryOf ["y"] 1 ⟨"y", .positionalOrKeyword, some (.val (.pyType .tensor)), .empty⟩ =
        "Tensor(a" ++ toString 1 ++ "!)" ++
          String.mk ((((paramSchemaType
            (⟨"y", .positionalOrKeyword, some (.val (.pyType .tensor)), .empty⟩ : Param)).getD "").data).drop 6) ++
          " " ++ "y" ++
          defaultSuffix ⟨"y", .positionalOrKeyword, some (.val (.pyType .tensor)), .empty⟩ ∧
      entryOf ["y"] 1 ⟨"y", .positionalOrKeyword, some (.val (.pyType .tensor)), .empty⟩ ∈
        schemaEntries ["y"] 0 false
          [⟨"x", .positionalOrKeyword, some (.val (.pyType .tensor)), .empty⟩,
           ⟨"y", .positionalOrKeyword, some (.val (.pyType .tensor)), .empty⟩] ∧
      ∃ ret, "(Tensor x, Tensor(a1!) y) -> ()" =
        "(" ++ String.intercalate ", "
          (schemaEntries ["y"] 0 false
            [⟨"x", .positionalOrKeyword, some (.val (.pyType .tensor)), .empty⟩,
             ⟨"y", .positionalOrKeyword, some (.val (.pyType .tensor)), .empty⟩]) ++
          ") -> " ++ ret) ∧
    infer_schema [⟨"n", .positionalOrKeyword, some (.val (.pyType .int)), .empty⟩]
      (some (.val .pyNone)) "(n: int) -> None" ["n"] =
      .error (.valueError (errorMsg ("Parameter " ++ "n" ++
        " is in mutable_args but only Tensors or collections of Tensors can be mutated")
        "(n: int) -> None")) :=
  ⟨C2_mutability_markers.1
      [⟨"x", .positionalOrKeyword, some (.val (.pyType .tensor)), .empty⟩,
       ⟨"y", .positionalOrKeyword, some (.val (.pyType .tensor)), .empty⟩]
      (some (.val .pyNone)) "(x: Tensor, y: Tensor) -> None" ["y"]
      "(Tensor x, Tensor(a1!) y) -> ()" 1
      ⟨"y", .positionalOrKeyword, some (.val (.pyType .tensor)), .empty⟩
      rfl rfl (by decide),
   C2_mutability_markers.2 []
      [] ⟨"n", .positionalOrKeyword, some (.val (.pyType .int)), .empty⟩
      (some (.val .pyNone)) "(n: int) -> None" ["n"]
      (by intro q hq; simp at hq) (by decide) (by decide) (by decide) (by decide)⟩

lemma hasOrigin_of_tuple {t : PyType} (h : originIsTuple t = true) :
    hasOrigin t = true := by
  cases t <;> first | rfl | simp [originIsTuple] at h

lemma lookup_tuple_none (t : PyType) (h : originIsTuple t = true) :
    lookupType SUPPORTED_PARAM_TYPES t = none := by
  cases t <;> first | rfl | simp [originIsTuple] at h

/-- The Tuple-specific rejection, lines 61-72 of the source. -/
lemma paramTypeCheck_tuple {s name : String} {a : Annot} {t : PyType}
    (hv : annotVal a = some (.pyType t)) (ht : originIsTuple t = true) :
    paramTypeCheck SUPPORTED_ENV s name a =
      error_fn ("Parameter " ++ name ++ " has unsupported type " ++ annotRepr a ++
        ". We do not support Tuple inputs in schema. As a workaround, please try to use List instead. " ++
        (if (lookupType SUPPORTED_PARAM_TYPES (tuple_to_list t)).isSome then
          "For example, " ++ renderPy (tuple_to_list t) ++ ".\n\n" else "\n\n") ++
        "The valid types are: " ++ dictKeysRepr SUPPORTED_PARAM_TYPES ++ ".") s := by
  have ha : resolveAnnot s a = .ok (.pyType t) := resolveAnnot_ok_iff.mpr hv
  unfold paramTypeCheck
  rw [ha]
  try dsimp only
  have hl : lookupType SUPPORTED_ENV.supportedParamTypes t = none := lookup_tuple_none t ht
  rw [hl]
  try dsimp only
  rw [if_pos (hasOrigin_of_tuple ht)]
  rw [if_pos ht]
  rfl

/-- One loop step on a parameter whose type check raises. -/
lemma loopParams_ptc_error (s : String) (m : List String) (p : Param)
    (post : List Param) {a : Annot} {e : PyError}
    (hkind : supported_param p.kind = true) (hann : Param.annotation p = some a)
    (hptc : paramTypeCheck SUPPORTED_ENV s p.name a = .error e)
    (idx : Nat) (P S : List String) (saw : Bool) :
    loopParams SUPPORTED_ENV s m idx (p :: post) P S saw = (.error e, SUPPORTED_ENV) := by
  rw [loopParams]
  rw [if_neg (by simp [hkind])]
  rw [starPair]
  try dsimp only
  rw [hann]
  try dsimp only
  rw [hptc]

/-- C10: every parameter annotated with a `typing.Tuple` type is rejected
with a `ValueError` (once processing reaches it), whose message carries a
concrete `List` replacement example exactly when `tuple_to_list` of the
annotation is itself a supported parameter type; and `tuple_to_list` maps
`Tuple[T]` and `Tuple[T, ...]` to `List[T]`, an n-ary tuple (n ≥ 2, no
trailing `Ellipsis`) to `List[Union[T1, ..., Tn]]`, and an empty or bare
`Tuple` to bare `List`.  (Tuple types are never keys of
`SUPPORTED_PARAM_TYPES`, so the rejection is unconditional.) -/
theorem C10_tuple_rejection :
    (∀ (pre post : List Param) (name : String) (a : Annot) (t : PyType)
       (d : Default) (kind : ParamKind) (r : Option Annot) (s : String)
       (m : List String),
      (∀ q ∈ pre, paramOK m q = true) → supported_param kind = true →
      annotVal a = some (.pyType t) → originIsTuple t = true →
      infer_schema (pre ++ ⟨name, kind, some a, d⟩ :: post) r s m =
        .error (.valueError (errorMsg ("Parameter " ++ name ++
          " has unsupported type " ++ annotRepr a ++
          ". We do not support Tuple inputs in schema. As a workaround, please try to use List instead. " ++
          (if (lookupType SUPPORTED_PARAM_TYPES (tuple_to_list t)).isSome then
            "For example, " ++ renderPy (tuple_to_list t) ++ ".\n\n" else "\n\n") ++
          "The valid types are: " ++ dictKeysRepr SUPPORTED_PARAM_TYPES ++ ".") s))) ∧
    (∀ t, originIsTuple t = true → lookupType SUPPORTED_PARAM_TYPES t = none) ∧
    tuple_to_list .tupleBare = .listBare ∧
    tuple_to_list (.tupleOf []) = .listBare ∧
    (∀ t, tuple_to_list (.tupleOf [t]) = .list t) ∧
    (∀ t, tuple_to_list (.tupleEllipsis t) = .list t) ∧
    (∀ a b ts, tuple_to_list (.tupleOf (a :: b :: ts)) = .list (mkUnion (a :: b :: ts))) := by
  refine ⟨?_, lookup_tuple_none, rfl, rfl, fun t => rfl, fun t => rfl, fun a b ts => rfl⟩
  intro pre post name a t d kind r s m hOKpre hkind hv ht
  unfold infer_schema
  rw [infer_schemaCore.eq_def]
  rw [loopParams_run_concat s m pre hOKpre _ 0 [] [] false]
  rw [loopParams_ptc_error s m ⟨name, kind, some a, d⟩ post hkind rfl
    (paramTypeCheck_tuple hv ht) _ _ _ _]

/-- Witness for C10 at `def f(x: Tuple[Tensor, None]) -> None` (where the
replacement example `typing.List[typing.Optional[torch.Tensor]]` is itself
supported and hence shown). -/
theorem C10_tuple_rejection_witness :
    infer_schema
      [⟨"x", .positionalOrKeyword,
        some (.val (.pyType (.tupleOf [.tensor, .noneType]))), .empty⟩]
      (some (.val .pyNone)) "(x: Tuple[Tensor, None]) -> None" [] =
      .error (.valueError (errorMsg ("Parameter " ++ "x" ++
        " has unsupported type " ++ annotRepr (.val (.pyType (.tupleOf [.tensor, .noneType]))) ++
        ". We do not support Tuple inputs in schema. As a workaround, please try to use List instead. " ++
        (if (lookupType SUPPORTED_PARAM_TYPES
            (tuple_to_list (.tupleOf [.tensor, .noneType]))).isSome then
          "For example, " ++ renderPy (tuple_to_list (.tupleOf [.tensor, .noneType])) ++ ".\n\n"
        else "\n\n") ++
        "The valid types are: " ++ dictKeysRepr SUPPORTED_PARAM_TYPES ++ ".")
        "(x: Tuple[Tensor, None]) -> None")) ∧
    (lookupType SUPPORTED_PARAM_TYPES
      (tuple_to_list (.tupleOf [.tensor, .noneType]))).isSome = true :=
  ⟨C10_tuple_rejection.1 [] [] "x" (.val (.pyType (.tupleOf [.tensor, .noneType])))
      (.tupleOf [.tensor, .noneType]) .empty .positionalOrKeyword
      (some (.val .pyNone)) "(x: Tuple[Tensor, None]) -> None" []
      (by intro q hq; simp at hq) (by decide) rfl (by decide),
   by decide⟩

lemma resolveAnnot_error_form {s : String} {a : Annot} {e : PyError}
    (h : resolveAnnot s a = .error e) : ∃ w, e = .valueError (errorMsg w s) := by
  cases a with
  | val v => simp [resolveAnnot] at h
  | strA text ev =>
    cases ev with
    | some v => simp [resolveAnnot] at h
    | none =>
      refine ⟨"Unsupported type annotation " ++ text ++ ". It is not a type.", ?_⟩
      simpa [resolveAnnot, error_fn] using h.symm

lemma paramTypeCheck_error_form {env : Env} {s n : String} {a : Annot} {msg : String}
    (h : paramTypeCheck env s n a = .error (.valueError msg)) :
    ∃ w, msg = errorMsg w s := by
  unfold paramTypeCheck at h
  cases ha : resolveAnnot s a with
  | error e =>
    rw [ha] at h
    simp only [Except.error.injEq] at h
    obtain ⟨w, hw⟩ := resolveAnnot_error_form ha
    rw [h] at hw
    exact ⟨w, by injection hw⟩
  | ok v =>
    rw [ha] at h
    cases v with
    | pyNone => simp at h
    | pyType t =>
      dsimp only at h
      cases hl : lookupType env.supportedParamTypes t with
      | some r => rw [hl] at h; simp at h
      | none =>
        rw [hl] at h
        dsimp only at h
        split at h
        · split at h
          · exact ⟨_, by simpa [error_fn] using (Except.error.inj h).symm⟩
          · exact ⟨_, by simpa [error_fn] using (Except.error.inj h).symm⟩
        · simp at h

lemma defaultReprE_error_form {s n : String} {d : Default} {msg : String}
    (h : defaultReprE s n d = .error (.valueError msg)) : ∃ w, msg = errorMsg w s := by
  cases d with
  | vDtype r =>
    simp only [defaultReprE] at h
    split at h <;> simp at h
  | vOther ty =>
    exact ⟨_, by simpa [defaultReprE, error_fn] using (Except.error.inj h).symm⟩
  | empty => simp [defaultReprE] at h
  | vNone => simp [defaultReprE] at h
  | vInt n' => simp [defaultReprE] at h
  | vFloat r => simp [defaultReprE] at h
  | vBool b => simp [defaultReprE] at h
  | vStr v => simp [defaultReprE] at h

lemma loopParams_error_form {s : String} {m : List String} :
    ∀ (ps : List Param) (idx : Nat) (P S : List String) (saw : Bool)
      (env2 : Env) (msg : String),
    loopParams SUPPORTED_ENV s m idx ps P S saw = (.error (.valueError msg), env2) →
    ∃ w, msg = errorMsg w s := by
  intro ps
  induction ps with
  | nil => intro idx P S saw env2 msg h; simp [loopParams] at h
  | cons p rest ih =>
    intro idx P S saw env2 msg h
    rw [loopParams] at h
    cases hkind : supported_param p.kind with
    | false =>
      rw [if_pos (by simp [hkind])] at h
      exact ⟨_, by simpa [error_fn] using (congrArg (fun x => x.1) h).symm⟩
    | true =>
      rw [if_neg (by simp [hkind])] at h
      rw [starPair] at h
      try dsimp only at h
      cases hann : Param.annotation p with
      | none =>
        rw [hann] at h
        exact ⟨_, by simpa [error_fn] using (congrArg (fun x => x.1) h).symm⟩
      | some a =>
        rw [hann] at h
        dsimp only at h
        cases hptc : paramTypeCheck SUPPORTED_ENV s p.name a with
        | error e =>
          rw [hptc] at h
          have he : e = .valueError msg := by
            have := congrArg (fun x => x.1) h
            simpa using this
          rw [he] at hptc
          exact paramTypeCheck_error_form hptc
        | ok st =>
          rw [hptc] at h
          try dsimp only at h
          by_cases hm : m.contains p.name = true
          · rw [if_pos hm] at h
            cases hpre : ("Tensor".data).isPrefixOf st.data with
            | false =>
              rw [if_neg (by simp [hpre])] at h
              exact ⟨_, by simpa [error_fn] using (congrArg (fun x => x.1) h).symm⟩
            | true =>
              rw [if_pos hpre] at h
              try dsimp only at h
              cases hdr : defaultReprE s p.name p.default with
              | error e =>
                rw [hdr] at h
                have he : e = .valueError msg := by
                  have := congrArg (fun x => x.1) h
                  simpa using this
                rw [he] at hdr
                exact defaultReprE_error_form hdr
              | ok o =>
                rw [hdr] at h
                cases o with
                | none => exact ih _ _ _ _ _ _ h
                | some d => exact ih _ _ _ _ _ _ h
          · rw [if_neg hm] at h
            try dsimp only at h
            cases hdr : defaultReprE s p.name p.default with
            | error e =>
              rw [hdr] at h
              have he : e = .valueError msg := by
                have := congrArg (fun x => x.1) h
                simpa using this
              rw [he] at hdr
              exact defaultReprE_error_form hdr
            | ok o =>
              rw [hdr] at h
              cases o with
              | none => exact ih _ _ _ _ _ _ h
              | some d => exact ih _ _ _ _ _ _ h

lemma parse_return_error_form {s : String} {rv : Option PyVal} {msg : String}
    (h : parse_return SUPPORTED_ENV s rv = .error (.valueError msg)) :
    ∃ w, msg = errorMsg w s := by
  have hor : ∀ t : PyType, rv = some (.pyType t) → originIsTuple t = true →
      t = .tupleBare ∨ (∃ ts, t = .tupleOf ts) ∨ (∃ t', t = .tupleEllipsis t') := by
    intro t _ ht
    cases t with
    | tupleBare => exact Or.inl rfl
    | tupleOf ts => exact Or.inr (Or.inl ⟨ts, rfl⟩)
    | tupleEllipsis t' => exact Or.inr (Or.inr ⟨t', rfl⟩)
    | _ => simp [originIsTuple] at ht
  cases rv with
  | none =>
    have e0 : parse_return SUPPORTED_ENV s none =
        error_fn ("Return has unsupported type <class 'inspect._empty'>. The valid types are: " ++
          dictRepr SUPPORTED_ENV.supportedReturnTypes ++ ".") s := rfl
    rw [e0] at h
    exact ⟨_, by simpa [error_fn] using (Except.error.inj h).symm⟩
  | some v =>
    cases v with
    | pyNone => simp [parse_return] at h
    | pyType t =>
      cases ht : originIsTuple t with
      | false =>
        unfold parse_return at h
        simp only [ht] at h
        cases hl : lookupType SUPPORTED_ENV.supportedReturnTypes t with
        | some r => simp [hl] at h
        | none =>
          simp [hl, error_fn] at h
          exact ⟨_, h.symm⟩
      | true =>
        rcases hor t rfl ht with h1 | ⟨ts, h1⟩ | ⟨t', h1⟩ <;> subst h1
        · simp [parse_return, originIsTuple] at h
        · have e1 : parse_return SUPPORTED_ENV s (some (.pyType (.tupleOf ts))) =
              (if ts.all (fun x => (lookupType SUPPORTED_ENV.supportedReturnTypes x).isSome) then
                Except.ok ("(" ++ String.intercalate ", "
                  (ts.map (fun x => (lookupType SUPPORTED_ENV.supportedReturnTypes x).getD "")) ++ ")")
              else error_fn ("Return has unsupported type " ++ renderPy (.tupleOf ts) ++
                ". The valid types are: " ++ dictRepr SUPPORTED_ENV.supportedReturnTypes ++ ".") s) := rfl
          rw [e1] at h
          split at h
          · simp at h
          · exact ⟨_, by simpa [error_fn] using (Except.error.inj h).symm⟩
        · have e2 : parse_return SUPPORTED_ENV s (some (.pyType (.tupleEllipsis t'))) =
              error_fn ("Return has unsupported type " ++ renderPy (.tupleEllipsis t') ++
                ". The valid types are: " ++ dictRepr SUPPORTED_ENV.supportedReturnTypes ++ ".") s := rfl
          rw [e2] at h
          exact ⟨_, by simpa [error_fn] using (Except.error.inj h).symm⟩

lemma infer_schema_error_form {ps : List Param} {r : Option Annot} {s : String}
    {m : List String} {msg : String}
    (h : infer_schema ps r s m = .error (.valueError msg)) : ∃ w, msg = errorMsg w s := by
  unfold infer_schema at h
  rw [infer_schemaCore.eq_def] at h
  cases hl : loopParams SUPPORTED_ENV s m 0 ps [] [] false with
  | mk res env2 =>
    have henv : env2 = SUPPORTED_ENV := by
      have := loopParams_env SUPPORTED_ENV s m ps 0 [] [] false
      rw [hl] at this
      exact this
    subst henv
    rw [hl] at h
    cases res with
    | error e =>
      dsimp only at h
      have he : e = .valueError msg := by simpa using h
      rw [he] at hl
      exact loopParams_error_form ps 0 [] [] false _ msg hl
    | ok acc =>
      obtain ⟨params, seen, saw⟩ := acc
      dsimp only at h
      cases hf : m.filter (fun x => !(seen.contains x)) with
      | cons y ys =>
        rw [hf] at h
        exact ⟨_, by simpa [error_fn] using h.symm⟩
      | nil =>
        rw [hf] at h
        cases r with
        | none =>
          dsimp only at h
          cases hpr : parse_return SUPPORTED_ENV s none with
          | error e =>
            rw [hpr] at h
            have he : e = .valueError msg := by simpa using h
            rw [he] at hpr
            exact parse_return_error_form hpr
          | ok ret => rw [hpr] at h; simp at h
        | some a =>
          dsimp only at h
          cases hra : resolveAnnot s a with
          | error e =>
            rw [hra] at h
            simp only [Except.map] at h
            have he : e = .valueError msg := by simpa using h
            obtain ⟨w, hw⟩ := resolveAnnot_error_form hra
            rw [he] at hw
            exact ⟨w, by injection hw⟩
          | ok v =>
            rw [hra] at h
            simp only [Except.map] at h
            try dsimp only at h
            cases hpr : parse_return SUPPORTED_ENV s (some v) with
            | error e =>
              rw [hpr] at h
              have he : e = .valueError msg := by simpa using h
              rw [he] at hpr
              exact parse_return_error_form hpr
            | ok ret => rw [hpr] at h; simp at h

lemma errorMsg_startsWith (w s : String) :
    strStartsWith (errorMsg w s) "infer_schema(func): " = true := by
  unfold strStartsWith errorMsg
  rw [List.isPrefixOf_iff_prefix]
  simp only [String.data_append, List.append_assoc]
  exact List.prefix_append _ _

lemma errorMsg_endsWith (w s : String) :
    strEndsWith (errorMsg w s) (s ++ ")") = true := by
  unfold strEndsWith errorMsg
  rw [List.isSuffixOf_iff_suffix]
  have h : (s ++ ")").data <:+
      (("infer_schema(func): " ++ w ++ " Got func with signature ").data ++ (s ++ ")").data) :=
    List.suffix_append _ _
  simpa [String.data_append, List.append_assoc] using h

/-- C8 as stated is falsified twice: (a) not every rejection is a
`ValueError` — a parameter annotated with an unsupported plain class (one
without an `__origin__` attribute, here the class `C0`) makes line 61's
`annotation_type.__origin__` raise `AttributeError`; (b) the `ValueError`
messages do not end with the function's signature: `error_fn` appends a
stray `')'` after `{sig}`, so they end with the signature followed by a
closing parenthesis. -/
theorem C8_counterexample :
    infer_schema [⟨"x", .positionalOrKeyword, some (.val (.pyType (.other 0))), .empty⟩]
      (some (.val .pyNone)) "(x: C0)" [] = .error .attributeError ∧
    (∀ msg : String,
      (Except.error PyError.attributeError : Except PyError String) ≠
        .error (.valueError msg)) ∧
    infer_schema [⟨"x", .positionalOnly, none, .empty⟩] (some (.val .pyNone)) "(x, /)" [] =
      .error (.valueError
        (errorMsg "We do not support positional-only args, varargs, or varkwargs." "(x, /)")) ∧
    strEndsWith
      (errorMsg "We do not support positional-only args, varargs, or varkwargs." "(x, /)")
      "(x, /)" = false ∧
    strEndsWith
      (errorMsg "We do not support positional-only args, varargs, or varkwargs." "(x, /)")
      ("(x, /)" ++ ")") = true :=
  ⟨rfl, fun msg h => by simp at h, rfl, by decide, by decide⟩

/-- C8 (amended): every `ValueError` raised by `infer_schema` carries the
message `'infer_schema(func): ' + description + ' Got func with signature '
+ str(sig) + ')'` — beginning with `'infer_schema(func): '` and ending with
the signature string followed by a closing parenthesis; it raises such a
`ValueError` for a positional-only/varargs/varkwargs parameter, an
unannotated parameter, a string annotation that does not evaluate to a
value, an unsupported parameter type that is a subscripted generic (an
unsupported plain class raises `AttributeError` instead), an unsupported
return type, an unsupported default value type, and a `mutates_args` entry
naming no parameter — that last check running only after all parameters
are processed, so a parameter error takes precedence over it. -/
theorem C8_amended :
    (∀ (ps : List Param) (r : Option Annot) (s : String) (m : List String)
       (msg : String), infer_schema ps r s m = .error (.valueError msg) →
      (∃ w, msg = errorMsg w s) ∧
      strStartsWith msg "infer_schema(func): " = true ∧
      strEndsWith msg (s ++ ")") = true) ∧
    (∀ (name : String) (k : ParamKind) (r : Option Annot) (s : String),
      (k = ParamKind.positionalOnly ∨ k = ParamKind.varPositional ∨
        k = ParamKind.varKeyword) →
      infer_schema [⟨name, k, none, .empty⟩] r s [] =
        .error (.valueError
          (errorMsg "We do not support positional-only args, varargs, or varkwargs." s))) ∧
    (∀ (name : String) (r : Option Annot) (s : String),
      infer_schema [⟨name, .positionalOrKeyword, none, .empty⟩] r s [] =
        .error (.valueError
          (errorMsg ("Parameter " ++ name ++ " must have a type annotation.") s))) ∧
    (∀ (name text : String) (r : Option Annot) (s : String),
      infer_schema [⟨name, .positionalOrKeyword, some (.strA text none), .empty⟩] r s [] =
        .error (.valueError
          (errorMsg ("Unsupported type annotation " ++ text ++ ". It is not a type.") s))) ∧
    (∀ (name : String) (n : Nat) (r : Option Annot) (s : String),
      infer_schema [⟨name, .positionalOrKeyword,
          some (.val (.pyType (.otherGeneric n))), .empty⟩] r s [] =
        .error (.valueError
          (errorMsg ("Parameter " ++ name ++ " has unsupported type " ++
            renderPy (.otherGeneric n) ++ ". The valid types are: " ++
            dictKeysRepr SUPPORTED_PARAM_TYPES ++ ".") s))) ∧
    (∀ (name : String) (n : Nat) (r : Option Annot) (s : String),
      infer_schema [⟨name, .positionalOrKeyword,
          some (.val (.pyType (.other n))), .empty⟩] r s [] =
        .error .attributeError) ∧
    (∀ (s : String) (t : PyType), originIsTuple t = false →
      lookupType SUPPORTED_RETURN_TYPES t = none →
      infer_schema [] (some (.val (.pyType t))) s [] =
        .error (.valueError
          (errorMsg ("Return has unsupported type " ++ renderPy t ++
            ". The valid types are: " ++ dictRepr SUPPORTED_RETURN_TYPES ++ ".") s))) ∧
    (∀ (name tyR : String) (r : Option Annot) (s : String),
      infer_schema [⟨name, .positionalOrKeyword,
          some (.val (.pyType .int)), .vOther tyR⟩] r s [] =
        .error (.valueError
          (errorMsg ("Parameter " ++ name ++ " has an unsupported default value type " ++
            tyR ++ ". Please file an issue on GitHub so we can prioritize this.") s))) ∧
    (∀ (x : String) (r : Option Annot) (s : String) (ps : List Param),
      (∀ p ∈ ps, paramOK [x] p = true) → x ∉ ps.map (fun p => p.name) →
      infer_schema ps r s [x] =
        .error (.valueError
          (errorMsg (renderStrSet [x] ++
            " in mutates_args were not found in the custom op's signature. " ++
            "mutates_args should contain the names of all args that the custom op mutates.") s))) ∧
    (∀ (name : String) (r : Option Annot) (s : String),
      infer_schema [⟨name, .positionalOnly, none, .empty⟩] r s ["ghost"] =
        .error (.valueError
          (errorMsg "We do not support positional-only args, varargs, or varkwargs." s))) := by
  refine ⟨?_, ?_, ?_, ?_, ?_, ?_, ?_, ?_, ?_, ?_⟩
  · intro ps r s m msg h
    obtain ⟨w, hw⟩ := infer_schema_error_form h
    subst hw
    exact ⟨⟨w, rfl⟩, errorMsg_startsWith w s, errorMsg_endsWith w s⟩
  · rintro name k r s (hk | hk | hk) <;> subst hk <;> rfl
  · intro name r s; rfl
  · intro name text r s; rfl
  · intro name n r s; rfl
  · intro name n r s; rfl
  · intro s t ht hl
    unfold infer_schema
    rw [infer_schemaCore.eq_def]
    show (match parse_return SUPPORTED_ENV s (some (.pyType t)) with
      | Except.error e => (Except.error e, SUPPORTED_ENV)
      | Except.ok ret =>
        (Except.ok ("(" ++ String.intercalate ", " ([] : List String) ++ ") -> " ++ ret),
          SUPPORTED_ENV)).1 = _
    have hpr : parse_return SUPPORTED_ENV s (some (.pyType t)) =
        .error (.valueError
          (errorMsg ("Return has unsupported type " ++ renderPy t ++
            ". The valid types are: " ++ dictRepr SUPPORTED_RETURN_TYPES ++ ".") s)) := by
      unfold parse_return
      simp only [ht, Bool.not_false, if_true, SUPPORTED_ENV]
      rw [hl]
      rfl
    rw [hpr]
  · intro name tyR r s; rfl
  · intro x r s ps hOK hx
    unfold infer_schema
    rw [infer_schemaCore.eq_def]
    rw [loopParams_format s [x] ps hOK 0 [] [] false]
    dsimp only
    have hc : ((ps.map (fun p => p.name)).contains x) = false := by
      simpa using hx
    have hf : ([x].filter
        (fun y => !((([] : List String) ++ ps.map (fun p => p.name)).contains y))) = [x] := by
      simp only [List.nil_append]
      rw [List.filter_eq_self]
      intro y hy
      rw [List.mem_singleton] at hy
      subst hy
      rw [hc]
      rfl
    rw [hf]
    rfl
  · intro name r s; rfl

/-- Witness for C8, instantiating the message-form conjunct at a concrete
failing run and the raising conjuncts at concrete inputs. -/
theorem C8_amended_witness :
    ((∃ w, errorMsg ("Parameter " ++ "x" ++ " must have a type annotation.") "(x)" =
        errorMsg w "(x)") ∧
      strStartsWith (errorMsg ("Parameter " ++ "x" ++ " must have a type annotation.") "(x)")
        "infer_schema(func): " = true ∧
      strEndsWith (errorMsg ("Parameter " ++ "x" ++ " must have a type annotation.") "(x)")
        ("(x)" ++ ")") = true) ∧
    infer_schema [⟨"a", .varPositional, none, .empty⟩] (some (.val .pyNone)) "(*a)" [] =
      .error (.valueError
        (errorMsg "We do not support positional-only args, varargs, or varkwargs." "(*a)")) ∧
    infer_schema [⟨"x", .positionalOrKeyword, some (.val (.pyType .tensor)), .empty⟩]
      (some (.val .pyNone)) "(x: Tensor) -> None" ["ghost"] =
      .error (.valueError
        (errorMsg (renderStrSet ["ghost"] ++
          " in mutates_args were not found in the custom op's signature. " ++
          "mutates_args should contain the names of all args that the custom op mutates.")
          "(x: Tensor) -> None")) :=
  ⟨C8_amended.1 [⟨"x", .positionalOrKeyword, none, .empty⟩] (some (.val .pyNone)) "(x)" []
      (errorMsg ("Parameter " ++ "x" ++ " must have a type annotation.") "(x)")
      (C8_amended.2.2.1 "x" (some (.val .pyNone)) "(x)"),
   C8_amended.2.1 "a" .varPositional (some (.val .pyNone)) "(*a)" (Or.inr (Or.inl rfl)),
   C8_amended.2.2.2.2.2.2.2.2.1 "ghost" (some (.val .pyNone)) "(x: Tensor) -> None"
      [⟨"x", .positionalOrKeyword, some (.val (.pyType .tensor)), .empty⟩]
      (by decide) (by decide)⟩

lemma splitAux_skip (n : List Char) :
    ∀ (pre rest : List Char), splitAux n pre.length (pre ++ rest) = splitAux n 0 rest := by
  intro pre
  induction pre with
  | nil => intro rest; simp
  | cons c pre' ih =>
    intro rest
    show splitAux n (pre'.length + 1) (c :: (pre' ++ rest)) = _
    rw [splitAux]
    exact ih rest

lemma isPrefixOf_pair {a b : Char} {l : List Char} :
    [a, b].isPrefixOf l = true ↔ ∃ rest, l = a :: b :: rest := by
  cases l with
  | nil => simp [List.isPrefixOf]
  | cons x xs =>
    cases xs with
    | nil => simp [List.isPrefixOf]
    | cons y ys =>
      constructor
      · intro h
        have h' : a = x ∧ b = y := by simpa [List.isPrefixOf] using h
        exact ⟨ys, by rw [h'.1, h'.2]⟩
      · rintro ⟨rest, hrest⟩
        injection hrest with hx hrest
        injection hrest with hy _
        simp [List.isPrefixOf, hx, hy]

lemma single_prefix_head {c d : Char} {rest : List Char}
    (h : [c].isPrefixOf (d :: rest) = true) : d = c := by
  have : (c == d) = true := by simpa [List.isPrefixOf] using h
  exact (beq_iff_eq.mp this).symm

lemma not_prefix_single {c : Char} {s : List Char} (h : c ∉ s) :
    ∀ k, [c].isPrefixOf (s.drop k) = false := by
  intro k
  cases hx : [c].isPrefixOf (s.drop k) with
  | false => rfl
  | true =>
    exfalso
    cases hd : s.drop k with
    | nil => rw [hd] at hx; simp [List.isPrefixOf] at hx
    | cons d rest =>
      rw [hd] at hx
      have hdc : d = c := single_prefix_head hx
      apply h
      rw [← hdc]
      exact (List.drop_subset k s) (hd ▸ List.mem_cons_self d rest)

lemma no_occ_of_not_contains {n s : List Char} (hn : n ≠ [])
    (h : containsSubstr n s = false) : ∀ k, n.isPrefixOf (s.drop k) = false := by
  intro k
  by_cases hk : k < s.length + 1
  · cases hx : n.isPrefixOf (s.drop k) with
    | false => rfl
    | true =>
      exfalso
      have hc : containsSubstr n s = true :=
        List.any_eq_true.mpr ⟨k, List.mem_range.mpr hk, hx⟩
      rw [h] at hc
      cases hc
  · rw [List.drop_eq_nil_of_le (by omega)]
    cases n with
    | nil => exact absurd rfl hn
    | cons m ms => rfl

/-- Absence of an `[a, b]` occurrence is preserved by appending, provided no
occurrence straddles the seam. -/
lemma noPair_append {a b : Char} {X Y : List Char}
    (hX : ∀ k, [a, b].isPrefixOf (X.drop k) = false)
    (hY : ∀ k, [a, b].isPrefixOf (Y.drop k) = false)
    (hjoin : ∀ xs ys, X = xs ++ [a] → Y = b :: ys → False) :
    ∀ k, [a, b].isPrefixOf ((X ++ Y).drop k) = false := by
  induction X with
  | nil =>
    intro k
    simpa using hY k
  | cons c X' ih =>
    intro k
    cases k with
    | zero =>
      cases hx : [a, b].isPrefixOf ((c :: X' ++ Y).drop 0) with
      | false => rfl
      | true =>
        exfalso
        simp only [List.drop_zero, List.cons_append] at hx
        obtain ⟨rest, hrest⟩ := isPrefixOf_pair.mp hx
        injection hrest with h1 hrest
        cases X' with
        | nil =>
          have hrest' : Y = b :: rest := by simpa using hrest
          exact hjoin [] rest (by rw [h1, List.nil_append]) hrest' 
        | cons d2 X'' =>
          injection hrest with h2 _
          have : [a, b].isPrefixOf ((c :: d2 :: X'').drop 0) = true := by
            rw [List.drop_zero, isPrefixOf_pair]
            exact ⟨X'', by rw [h1, h2]⟩
          rw [hX 0] at this
          cases this
    | succ k' =>
      have hX' : ∀ k, [a, b].isPrefixOf (X'.drop k) = false := by
        intro k2
        simpa using hX (k2 + 1)
      have hjoin' : ∀ xs ys, X' = xs ++ [a] → Y = b :: ys → False := by
        intro xs ys hxs hys
        exact hjoin (c :: xs) ys (by rw [hxs]; rfl) hys
      simpa using ih hX' hjoin' k'

/-- Positions strictly inside `A` carry no `[a, b]` occurrence of
`A ++ X` when `A` has none and `X` does not begin with `b`. -/
lemma prefix_lt_of_noPair {a b : Char} {A X : List Char}
    (hA : ∀ k, [a, b].isPrefixOf (A.drop k) = false)
    (hX : ∀ ys, X ≠ b :: ys) :
    ∀ k, k < A.length → [a, b].isPrefixOf ((A ++ X).drop k) = false := by
  intro k hk
  cases hp : [a, b].isPrefixOf ((A ++ X).drop k) with
  | false => rfl
  | true =>
    exfalso
    have hdrop : (A ++ X).drop k = A.drop k ++ X := by
      rw [List.drop_append_eq_append_drop]
      rw [show k - A.length = 0 from by omega]
      rw [List.drop_zero]
    rw [hdrop] at hp
    obtain ⟨rest, hrest⟩ := isPrefixOf_pair.mp hp
    cases hAd : A.drop k with
    | nil =>
      have : A.length ≤ k := by
        have := congrArg List.length hAd
        simp [List.length_drop] at this
        omega
      omega
    | cons d tail =>
      rw [hAd] at hrest
      injection hrest with h1 hrest
      cases tail with
      | nil =>
        have hrest' : X = b :: rest := by simpa using hrest
        exact hX rest hrest' 
      | cons d2 tail2 =>
        injection hrest with h2 _
        have : [a, b].isPrefixOf (A.drop k) = true := by
          rw [hAd, isPrefixOf_pair]
          exact ⟨tail2, by rw [h1, h2]⟩
        rw [hA k] at this
        cases this

/-- Positions strictly inside `A` carry no `[c]` occurrence of `A ++ X`
when `c ∉ A`. -/
lemma prefix_lt_single {c : Char} {A X : List Char} (hA : c ∉ A) :
    ∀ k, k < A.length → [c].isPrefixOf ((A ++ X).drop k) = false := by
  intro k hk
  cases hp : [c].isPrefixOf ((A ++ X).drop k) with
  | false => rfl
  | true =>
    exfalso
    have hdrop : (A ++ X).drop k = A.drop k ++ X := by
      rw [List.drop_append_eq_append_drop]
      rw [show k - A.length = 0 from by omega]
      rw [List.drop_zero]
    rw [hdrop] at hp
    cases hAd : A.drop k with
    | nil =>
      have : A.length ≤ k := by
        have := congrArg List.length hAd
        simp [List.length_drop] at this
        omega
      omega
    | cons d tail =>
      rw [hAd] at hp
      rw [List.cons_append] at hp
      have hdc : d = c := single_prefix_head hp
      apply hA
      rw [← hdc]
      exact (List.drop_subset k A) (hAd ▸ List.mem_cons_self d tail)

lemma splitAux_no_occ (n : List Char) :
    ∀ (s : List Char), (∀ k, n.isPrefixOf (s.drop k) = false) →
    splitAux n 0 s = [s] := by
  intro s
  induction s with
  | nil => intro _; rfl
  | cons c rest ih =>
    intro h
    rw [splitAux]
    rw [if_neg (by
      have h0 : n.isPrefixOf (c :: rest) = false := by simpa using h 0
      rw [h0]
      exact Bool.false_ne_true)]
    rw [ih (fun k => by simpa using h (k + 1))]

lemma splitAux_boundary (n : List Char) (hn : n ≠ []) :
    ∀ (A B : List Char),
    (∀ k, k < A.length → n.isPrefixOf ((A ++ n ++ B).drop k) = false) →
    splitAux n 0 (A ++ n ++ B) = A :: splitAux n 0 B := by
  intro A
  induction A with
  | nil =>
    intro B _
    obtain ⟨m, ms, rfl⟩ : ∃ m ms, n = m :: ms := by
      cases n with
      | nil => exact absurd rfl hn
      | cons m ms => exact ⟨m, ms, rfl⟩
    show splitAux (m :: ms) 0 (m :: (ms ++ B)) = [] :: splitAux (m :: ms) 0 B
    rw [splitAux]
    rw [if_pos (by
      rw [List.isPrefixOf_iff_prefix]
      exact List.prefix_append (m :: ms) B)]
    rw [show (m :: ms).length - 1 = ms.length from by simp]
    rw [splitAux_skip (m :: ms) ms B]
  | cons c A' ih =>
    intro B h
    show splitAux n 0 (c :: (A' ++ n ++ B)) = _
    rw [splitAux]
    rw [if_neg (by
      have h0 : n.isPrefixOf (c :: (A' ++ n ++ B)) = false := by
        simpa using h 0 (by simp)
      rw [h0]
      exact Bool.false_ne_true)]
    rw [ih B (fun k hk => by
      have := h (k + 1) (by simp only [List.length_cons]; omega)
      simpa using this)]

/-- No `"->"` occurrence starts inside `'(' :: I ++ [')', ' ']` when `I`
contains no `"->"` substring; hence the first split of the schema at
`"->"` cuts exactly at the real arrow. -/
lemma arrow_boundary (I B : List Char) (hI : containsSubstr ['-', '>'] I = false) :
    splitAux ['-', '>'] 0 (('(' :: (I ++ [')', ' '])) ++ ['-', '>'] ++ B) =
      ('(' :: (I ++ [')', ' '])) :: splitAux ['-', '>'] 0 B := by
  apply splitAux_boundary ['-', '>'] (by simp) _ B
  have hI' : ∀ k, ['-', '>'].isPrefixOf (I.drop k) = false :=
    no_occ_of_not_contains (by simp) hI
  have hYconc : ∀ k, ['-', '>'].isPrefixOf (([')', ' '] : List Char).drop k) = false :=
    no_occ_of_not_contains (by simp) (by decide)
  have hA1 : ∀ k, ['-', '>'].isPrefixOf ((I ++ [')', ' ']).drop k) = false := by
    apply noPair_append hI' hYconc
    intro xs ys _ hY
    injection hY with hc _
    exact absurd hc (by decide)
  have hA : ∀ k, ['-', '>'].isPrefixOf ((('(' : Char) :: (I ++ [')', ' '])).drop k) = false := by
    have hX0 : ∀ k, ['-', '>'].isPrefixOf ((['('] : List Char).drop k) = false :=
      no_occ_of_not_contains (by simp) (by decide)
    have := noPair_append (X := ['(']) (Y := I ++ [')', ' ']) hX0 hA1
      (by
        intro xs ys hxs _
        cases xs with
        | nil => injection hxs with hc _; exact absurd hc (by decide)
        | cons z zs => simp at hxs)
    simpa using this
  intro k hk
  rw [List.append_assoc]
  exact prefix_lt_of_noPair hA
    (fun ys hY => by injection hY with hc _; exact absurd hc (by decide)) k hk

/-- C1 as stated is falsified by a keyword-only parameter: for
`def f(*, x: int) -> None`, `infer_schema` returns `"(*, SymInt x) -> ()"` —
the schema contains a `"*"` entry, which is neither of the claim's two
parameter-entry forms, so the output differs from the claimed string
`'(' + comma-joined parameter entries + ') -> ' + return` =
`"(SymInt x) -> ()"`. -/
theorem C1_counterexample :
    infer_schema [⟨"x", .keywordOnly, some (.val (.pyType .int)), .empty⟩]
      (some (.val .pyNone)) "(*, x: int) -> None" [] = .ok "(*, SymInt x) -> ()" ∧
    claimSchemaC1 [⟨"x", .keywordOnly, some (.val (.pyType .int)), .empty⟩] "()" =
      "(SymInt x) -> ()" ∧
    ("(*, SymInt x) -> ()" : String) ≠ "(SymInt x) -> ()" :=
  ⟨rfl, rfl, by decide⟩

/-- C1 (amended): for every prototype function all of whose parameters are
positional-or-keyword or keyword-only, carry a supported type annotation,
and have a supported (or no) default, and whose return annotation is
supported, `infer_schema` (with the default empty `mutates_args`) returns
`'('` + the comma-joined parameter entries — each of the form
`<schema type> <name>` or `<schema type> <name>=<default>`, with a single
`'*'` entry inserted immediately before the entry of the first keyword-only
parameter — + `') -> '` + the rendering of the return annotation. -/
theorem C1_amended (ps : List Param) (r : Option Annot) (s : String)
    (rv : Option PyVal) (ret : String)
    (hOK : ∀ p ∈ ps, paramOK [] p = true)
    (hrv : retVal r = some rv) (hret : retSchema rv = some ret) :
    infer_schema ps r s [] =
      .ok ("(" ++ String.intercalate ", " (claimEntriesAmended ps) ++ ") -> " ++ ret) := by
  rw [infer_schema_ok_iff]
  exact ⟨hOK, by simp, rv, ret, hrv, hret, by rw [schemaEntries_nil_amended]⟩

/-- Witness for the amended C1 at
`def f(x: Tensor, *, n: int = 2) -> Tensor`. -/
theorem C1_amended_witness :
    infer_schema
      [⟨"x", .positionalOrKeyword, some (.val (.pyType .tensor)), .empty⟩,
       ⟨"n", .keywordOnly, some (.val (.pyType .int)), .vInt 2⟩]
      (some (.val (.pyType .tensor))) "(x: Tensor, *, n: int = 2) -> Tensor" [] =
      .ok ("(" ++ String.intercalate ", "
        (claimEntriesAmended
          [⟨"x", .positionalOrKeyword, some (.val (.pyType .tensor)), .empty⟩,
           ⟨"n", .keywordOnly, some (.val (.pyType .int)), .vInt 2⟩]) ++ ") -> " ++ "Tensor") :=
  C1_amended _ _ _ _ _ (by decide) rfl (by decide)

/-- Witness for C3 at concrete return annotations. -/
theorem C3_parse_return_cases_witness :
    parse_return SUPPORTED_ENV "(f)" (some (.pyType .tensor)) = .ok "Tensor" ∧
    parse_return SUPPORTED_ENV "(f)" (some (.pyType (.tupleOf [.tensor, .int]))) =
      .ok ("(" ++ String.intercalate ", "
        ([PyType.tensor, PyType.int].map
          (fun t => (lookupType SUPPORTED_RETURN_TYPES t).getD "")) ++ ")") ∧
    (∃ msg, parse_return SUPPORTED_ENV "(f)" (some (.pyType .str)) =
      .error (.valueError msg)) :=
  ⟨C3_parse_return_cases.2.1 "(f)" .tensor "Tensor" (by decide) (by decide),
   C3_parse_return_cases.2.2.2.2.1 "(f)" [.tensor, .int]
     (List.all_eq_true.mp (by decide)),
   C3_parse_return_cases.2.2.2.2.2.2 "(f)" (some (.pyType .str)) (by decide)⟩

/-- For a schema whose inputs text contains no `'('`, no `')'` and no
`"->"`, the three truncating splits recover exactly the inputs text, and
the parse is independent of the returns text. -/
lemma parseInputs_clean (I R : List Char)
    (h1 : '(' ∉ I) (h2 : ')' ∉ I)
    (h3 : containsSubstr ['-', '>'] I = false) :
    parseInputs ('(' :: (I ++ (')' :: ' ' :: '-' :: '>' :: ' ' :: R))) =
      splitSub [','] I := by
  have harrow : splitSub ['-', '>'] ('(' :: (I ++ (')' :: ' ' :: '-' :: '>' :: ' ' :: R))) =
      ('(' :: (I ++ [')', ' '])) :: splitAux ['-', '>'] 0 (' ' :: R) := by
    have hassoc : ('(' :: (I ++ (')' :: ' ' :: '-' :: '>' :: ' ' :: R)) : List Char) =
        (('(' :: (I ++ [')', ' '])) ++ ['-', '>']) ++ (' ' :: R) := by
      simp
    show splitAux ['-', '>'] 0 ('(' :: (I ++ (')' :: ' ' :: '-' :: '>' :: ' ' :: R))) = _
    rw [hassoc]
    exact arrow_boundary I (' ' :: R) h3
  have hparen : splitSub ['('] ('(' :: (I ++ [')', ' '])) = [[], I ++ [')', ' ']] := by
    show splitAux ['('] 0 ('(' :: (I ++ [')', ' '])) = _
    rw [splitAux]
    rw [if_pos (by simp [List.isPrefixOf])]
    rw [show (['('] : List Char).length - 1 = 0 from rfl]
    have hnotin : '(' ∉ I ++ [')', ' '] := fun hmem => by
      rcases List.mem_append.mp hmem with hmm | hmm
      · exact h1 hmm
      · exact absurd hmm (by decide)
    rw [splitAux_no_occ ['('] _ (not_prefix_single hnotin)]
  have hclose : splitSub [')'] (I ++ [')', ' ']) = [I, [' ']] := by
    show splitAux [')'] 0 (I ++ [')', ' ']) = _
    have hyp : ∀ k, k < I.length →
        [')'].isPrefixOf (((I ++ [')']) ++ [' ']).drop k) = false := by
      intro k hk
      rw [List.append_assoc]
      exact prefix_lt_single h2 k hk
    have e : (I ++ [')']) ++ [' '] = I ++ [')', ' '] := by simp
    rw [← e, splitAux_boundary [')'] (by simp) I [' '] hyp]
    rw [show splitAux [')'] 0 [' '] = [[' ']] from rfl]
  show splitSub [','] ((splitSub [')'] ((splitSub ['(']
      ((splitSub ['-', '>']
        ('(' :: (I ++ (')' :: ' ' :: '-' :: '>' :: ' ' :: R)))).headD [])).getD 1 [])).headD []) =
    splitSub [','] I
  rw [harrow, List.headD_cons, hparen]
  rw [show ([[], I ++ [')', ' ']] : List (List Char)).getD 1 [] = I ++ [')', ' '] from rfl]
  rw [hclose, List.headD_cons]

/-- C4 as stated is falsified by defaults containing `'('` or `"->"`: on
`'(str s="(", Tensor t) -> ()'` and on `'(str s="->", Tensor t) -> ()'`
the code truncates the inputs text at the quoted character and returns
`False`, although a comma-separated input has first field `Tensor`. -/
theorem C4_counterexample :
    has_tensor_arg "(str s=\"(\", Tensor t) -> ()" = false ∧
    claimTensorInputs ("str s=\"(\", Tensor t".data) = true ∧
    has_tensor_arg "(str s=\"->\", Tensor t) -> ()" = false ∧
    claimTensorInputs ("str s=\"->\", Tensor t".data) = true := by
  refine ⟨?_, ?_, ?_, ?_⟩ <;> decide

/-- C4, amended: for every schema `'(' + inputs + ') -> ' + returns` whose
inputs text contains no `'('`, no `')'` and no `"->"` substring,
`has_tensor_arg` returns true iff some comma-separated input's first
whitespace-separated field (after stripping) contains `"Tensor"` — the
right-hand side reads only the inputs text, so the result is independent
of the text after `"->"`. -/
theorem C4_amended (I R : List Char)
    (h1 : '(' ∉ I) (h2 : ')' ∉ I)
    (h3 : containsSubstr ['-', '>'] I = false) :
    has_tensor_arg (String.mk ('(' :: (I ++ (')' :: ' ' :: '-' :: '>' :: ' ' :: R)))) =
      claimTensorInputs I := by
  show ((parseInputs ('(' :: (I ++ (')' :: ' ' :: '-' :: '>' :: ' ' :: R)))).map
      (fun input => (splitSub [' '] (pyStrip input)).headD [])).any
    (fun s => containsSubstr ("Tensor".data) s) = _
  rw [parseInputs_clean I R h1 h2 h3]
  rfl

/-- Witness for the amended C4 at `'(Tensor x, int y) -> ()'`. -/
theorem C4_amended_witness :
    has_tensor_arg (String.mk ('(' :: (("Tensor x, int y".data) ++
        (')' :: ' ' :: '-' :: '>' :: ' ' :: "()".data)))) =
      claimTensorInputs ("Tensor x, int y".data) :=
  C4_amended ("Tensor x, int y".data) ("()".data) (by decide) (by decide) (by decide)

/-- C5 as stated is falsified by a default containing `'('`: on
`'(str s="(", Device device) -> ()'` the code truncates the inputs text at
the quoted `'('` and returns `None`, although the input at index 1 strips
to exactly `'Device device'`. -/
theorem C5_counterexample :
    get_device_arg_id "(str s=\"(\", Device device) -> ()" = none ∧
    claimDeviceId ("str s=\"(\", Device device".data) = some 1 := by
  constructor <;> decide

/-- C5, amended: for every schema `'(' + inputs + ') -> ' + returns` whose
inputs text contains no `'('`, no `')'` and no `"->"` substring,
`get_device_arg_id` returns the zero-based index of the first
comma-separated input that strips to exactly `"Device device"`, and `none`
when there is no such input — independently of the text after `"->"`. -/
theorem C5_amended (I R : List Char)
    (h1 : '(' ∉ I) (h2 : ')' ∉ I)
    (h3 : containsSubstr ['-', '>'] I = false) :
    get_device_arg_id (String.mk ('(' :: (I ++ (')' :: ' ' :: '-' :: '>' :: ' ' :: R)))) =
      claimDeviceId I := by
  show (parseInputs ('(' :: (I ++ (')' :: ' ' :: '-' :: '>' :: ' ' :: R)))).findIdx?
      (fun s => pyStrip s == "Device device".data) = _
  rw [parseInputs_clean I R h1 h2 h3]
  rfl

/-- Witness for the amended C5 at `'(Tensor x, Device device) -> ()'`. -/
theorem C5_amended_witness :
    get_device_arg_id (String.mk ('(' :: (("Tensor x, Device device".data) ++
        (')' :: ' ' :: '-' :: '>' :: ' ' :: "()".data)))) =
      claimDeviceId ("Tensor x, Device device".data) :=
  C5_amended ("Tensor x, Device device".data) ("()".data)
    (by decide) (by decide) (by decide)

end InferSchema
